import Mathlib

/-!
Verification development for the offer-extraction backend.

The Python sources under `src/` are shallowly embedded below:
* dynamic Python/JSON values become the inductive `PyVal`; Python floats are
  modelled as `ℚ` (all values the code manipulates are finite decimals), with
  `round(x, 2)` modelled as round-half-to-even at two decimal places;
* `dict`s become association lists with last-writer-wins insertion
  (`dset`), mirroring Python dict semantics;
* fallible code (Python exceptions) returns `Except String _`;
* the external interpretation service, the exchange-rate service and the
  webhook transport are modelled as explicit oracle functions passed in,
  with each call's observable effects (fetch log, delivery attempts,
  recorded unit errors) returned alongside the result.
-/

set_option autoImplicit false

/-- A Python runtime value as produced by `json.loads` / handled by the
normalisation code: `None`, booleans, ints, floats (modelled as `ℚ`),
strings, lists and dicts. -/
inductive PyVal where
  | vnone : PyVal
  | bool (b : Bool) : PyVal
  | int (n : ℤ) : PyVal
  | float (q : ℚ) : PyVal
  | str (s : String) : PyVal
  | list (xs : List PyVal) : PyVal
  | dict (xs : List (String × PyVal)) : PyVal

/-- Numeric view shared by Python `bool`, `int` and `float` (`True == 1`,
`0 == 0.0` etc.). -/
def toQ : PyVal → Option ℚ
  | PyVal.bool b => some (if b then 1 else 0)
  | PyVal.int n => some (n : ℚ)
  | PyVal.float q => some q
  | _ => Option.none

mutual

/-- Python `==`: numbers compare by value across `bool`/`int`/`float`,
strings by content, `None` only to itself; containers compare elementwise. -/
def pyEq (a b : PyVal) : Bool :=
  match a, b with
  | PyVal.list x, PyVal.list y => pyEqL x y
  | PyVal.dict x, PyVal.dict y => pyEqD x y
  | PyVal.str x, PyVal.str y => x == y
  | PyVal.vnone, PyVal.vnone => true
  | x, y =>
    match toQ x, toQ y with
    | some qx, some qy => qx == qy
    | _, _ => false

def pyEqL : List PyVal → List PyVal → Bool
  | [], [] => true
  | x :: xs, y :: ys => pyEq x y && pyEqL xs ys
  | _, _ => false

def pyEqD : List (String × PyVal) → List (String × PyVal) → Bool
  | [], [] => true
  | x :: xs, y :: ys => x.1 == y.1 && pyEq x.2 y.2 && pyEqD xs ys
  | _, _ => false

end

/-- Python truthiness (`bool(x)`). -/
def pyBool : PyVal → Bool
  | PyVal.vnone => false
  | PyVal.bool b => b
  | PyVal.int n => n != 0
  | PyVal.float q => q != 0
  | PyVal.str s => s != ""
  | PyVal.list xs => !xs.isEmpty
  | PyVal.dict xs => !xs.isEmpty

/-- Whether a value is hashable — set membership (`x in SENTINELS`) raises
`TypeError` for lists and dicts. -/
def hashable : PyVal → Bool
  | PyVal.list _ => false
  | PyVal.dict _ => false
  | _ => true

/-- First-match lookup in an association list (entries built by the code
below have unique keys, mirroring a Python dict). -/
def dlook (d : List (String × PyVal)) (k : String) : Option PyVal :=
  (d.find? (fun e => e.1 == k)).map (fun e => e.2)

/-- `d.get(k, dflt)`. -/
def dget (d : List (String × PyVal)) (k : String) (dflt : PyVal) : PyVal :=
  (dlook d k).getD dflt

/-- Dict write `d[k] = v`: replace the first entry with key `k`, or append. -/
def dset (d : List (String × PyVal)) (k : String) (v : PyVal) :
    List (String × PyVal) :=
  match d with
  | [] => [(k, v)]
  | e :: rest => if e.1 == k then (k, v) :: rest else e :: dset rest k v

/-- Digit run value. -/
def digitsVal (cs : List Char) : ℕ :=
  cs.foldl (fun a c => a * 10 + (c.toNat - 48)) 0

/-- Split a leading run of decimal digits. -/
def takeDigits : List Char → List Char × List Char
  | [] => ([], [])
  | c :: cs =>
    if c.isDigit then
      let p := takeDigits cs
      (c :: p.1, p.2)
    else ([], c :: cs)

/-- Optional leading sign; returns (negative?, rest). -/
def takeSign : List Char → Bool × List Char
  | '-' :: cs => (true, cs)
  | '+' :: cs => (false, cs)
  | cs => (false, cs)

/-- Exponent suffix of a float literal. -/
def parseExp (mant : ℚ) (cs : List Char) : Option ℚ :=
  let sp := takeSign cs
  let dp := takeDigits sp.2
  if dp.1 = [] ∨ dp.2 ≠ [] then Option.none
  else some (if sp.1 then mant / 10 ^ digitsVal dp.1 else mant * 10 ^ digitsVal dp.1)

/-- Model of Python `float(s)` on finite decimal literals: optional sign,
digits with at most one point, optional exponent, surrounding whitespace
allowed.  (The exotic forms `nan`/`inf`/underscore separators are outside the
model.) -/
def parseFloat (s : String) : Option ℚ :=
  let cs := s.trim.data
  let sp := takeSign cs
  let ip := takeDigits sp.2
  let fp : List Char × List Char :=
    match ip.2 with
    | '.' :: rest => takeDigits rest
    | _ => ([], ip.2)
  if ip.1 = [] ∧ fp.1 = [] then Option.none
  else
    let mant : ℚ := (digitsVal ip.1 : ℚ) + (digitsVal fp.1 : ℚ) / 10 ^ fp.1.length
    let res : Option ℚ :=
      match fp.2 with
      | [] => some mant
      | 'e' :: rest => parseExp mant rest
      | 'E' :: rest => parseExp mant rest
      | _ => Option.none
    res.map (fun q => if sp.1 then -q else q)

/-- Fractional decimal digits of a rational in `[0,1)` (with fuel); `none`
when the expansion does not terminate within the fuel. -/
def fracDigitsAux : ℕ → ℚ → Option (List Char)
  | 0, q => if q = 0 then some [] else Option.none
  | fuel + 1, q =>
    if q = 0 then some []
    else
      let d := ⌊q * 10⌋
      (fracDigitsAux fuel (q * 10 - (d : ℚ))).map
        (fun ds => Char.ofNat (48 + d.toNat) :: ds)

/-- Model of Python `str(x)` / `repr(x)` for a float: shortest decimal form,
with a trailing `.0` for integral floats.  Rationals without a finite decimal
expansion (unreachable from the code paths proved about) fall back to a
fraction rendering. -/
def pyRepr (q : ℚ) : String :=
  let sign := if q < 0 then "-" else ""
  let a := |q|
  let ip := (⌊a⌋).toNat
  let fr := a - (⌊a⌋ : ℚ)
  if fr = 0 then sign ++ toString ip ++ ".0"
  else
    match fracDigitsAux 64 fr with
    | some ds => sign ++ toString ip ++ "." ++ String.mk ds
    | Option.none => sign ++ toString a.num ++ "/" ++ toString a.den

/-- Model of Python `str(raw)` on the values reaching the cleaner.  The
container cases never reach `str` on an executed path (set membership raises
`TypeError` first), so their rendering is a placeholder. -/
def pyStr : PyVal → String
  | PyVal.vnone => "None"
  | PyVal.bool true => "True"
  | PyVal.bool false => "False"
  | PyVal.int n => toString n
  | PyVal.float q => pyRepr q
  | PyVal.str s => s
  | PyVal.list _ => "[...]"
  | PyVal.dict _ => "\x7b...\x7d"

/-- Model of Python `float(raw)` (TypeError/ValueError become `none`). -/
def pyFloat : PyVal → Option ℚ
  | PyVal.bool b => some (if b then 1 else 0)
  | PyVal.int n => some (n : ℚ)
  | PyVal.float q => some q
  | PyVal.str s => parseFloat s
  | _ => Option.none

/-- Round half to even to an integer (Python `round`). -/
def roundHalfEven (q : ℚ) : ℤ :=
  let f := ⌊q⌋
  let r := q - (f : ℚ)
  if r < 1 / 2 then f
  else if 1 / 2 < r then f + 1
  else if f % 2 = 0 then f else f + 1

/-- Python `round(q, 2)`. -/
def round2 (q : ℚ) : ℚ := (roundHalfEven (q * 100) : ℚ) / 100

/-- `f"{int(pct)}%" if pct == int(pct) else f"{pct}%"`. -/
def fmtPct (q : ℚ) : String :=
  if q.den = 1 then toString q.num ++ "%" else pyRepr q ++ "%"

/-- Does the string end with a percent sign (`s.endswith('%')`)? -/
def endsPct (s : String) : Bool := s.data.getLast? = some (Char.ofNat 37)

/-- The `SENTINELS` string set of `clean_product_data` (exact casings from
the source), with `None` adjoined when used as a `PyVal` set. -/
def sentinelStrings : List String :=
  ["Not Found", "not found", "NOT FOUND", "null", "NULL",
   "N/A", "n/a", "na", "NA", "none", "None", "NONE", ""]

def sentinelVals : List PyVal :=
  PyVal.vnone :: sentinelStrings.map PyVal.str

/-- The sentinel words other than the empty string (the empty string is the
blank itself). -/
def nonEmptySentinels : List String :=
  ["Not Found", "not found", "NOT FOUND", "null", "NULL",
   "N/A", "n/a", "na", "NA", "none", "None", "NONE"]

/-- The schema fields handled by the generic string branch of the cleaner
(everything except the numeric fields, the three specially-handled fields,
the list/bool/float-typed fields and `product_key`, which the post-step may
overwrite). -/
def stringPassFields : List String :=
  ["uid", "processing_version", "brand", "product_name", "product_reference",
   "category", "sub_category", "origin_country", "vintage", "packaging",
   "bottle_or_can_type", "incoterm", "location", "port", "lead_time",
   "supplier_name", "supplier_reference", "supplier_country", "offer_date",
   "valid_until", "date_received", "source_channel", "source_filename",
   "source_message_id", "best_before_date", "label_language", "ean_code",
   "gift_box", "custom_status"]

/-- `raw in SENTINELS`: hashes the value first, so lists/dicts raise
`TypeError`. -/
def inSentinels (raw : PyVal) : Except String Bool :=
  if hashable raw then Except.ok (sentinelVals.any (fun v => pyEq raw v))
  else Except.error "TypeError: unhashable type"

/-- Plain list membership by Python `==` (no hashing). -/
def pyIn (v : PyVal) (l : List PyVal) : Bool := l.any (fun x => pyEq v x)

def NUMERIC_FIELDS : List String :=
  ["unit_volume_ml", "units_per_case", "cases_per_pallet", "quantity_case",
   "price_per_unit", "price_per_case", "price_per_unit_eur", "price_per_case_eur",
   "min_order_quantity_case", "moq_cases"]

def NUMERIC_NEVER_ZERO : List String :=
  ["unit_volume_ml", "units_per_case", "cases_per_pallet", "quantity_case",
   "min_order_quantity_case", "moq_cases"]

/-- The `schema_defaults` dict of `clean_product_data`, in source order. -/
def schemaDefaults : List (String × PyVal) :=
  [("uid", PyVal.str ""),
   ("product_key", PyVal.str ""),
   ("processing_version", PyVal.str ""),
   ("brand", PyVal.str ""),
   ("product_name", PyVal.str ""),
   ("product_reference", PyVal.str ""),
   ("category", PyVal.str ""),
   ("sub_category", PyVal.str ""),
   ("origin_country", PyVal.str ""),
   ("vintage", PyVal.str ""),
   ("alcohol_percent", PyVal.str ""),
   ("packaging", PyVal.str ""),
   ("unit_volume_ml", PyVal.vnone),
   ("units_per_case", PyVal.vnone),
   ("cases_per_pallet", PyVal.vnone),
   ("quantity_case", PyVal.vnone),
   ("bottle_or_can_type", PyVal.str ""),
   ("price_per_unit", PyVal.vnone),
   ("price_per_case", PyVal.vnone),
   ("currency", PyVal.str ""),
   ("price_per_unit_eur", PyVal.vnone),
   ("price_per_case_eur", PyVal.vnone),
   ("incoterm", PyVal.str ""),
   ("location", PyVal.str ""),
   ("min_order_quantity_case", PyVal.vnone),
   ("port", PyVal.str ""),
   ("lead_time", PyVal.str ""),
   ("supplier_name", PyVal.str ""),
   ("supplier_reference", PyVal.str ""),
   ("supplier_country", PyVal.str ""),
   ("offer_date", PyVal.str ""),
   ("valid_until", PyVal.str ""),
   ("date_received", PyVal.str ""),
   ("source_channel", PyVal.str ""),
   ("source_filename", PyVal.str ""),
   ("source_message_id", PyVal.str ""),
   ("confidence_score", PyVal.float 0),
   ("error_flags", PyVal.list []),
   ("needs_manual_review", PyVal.bool false),
   ("best_before_date", PyVal.str ""),
   ("label_language", PyVal.str ""),
   ("ean_code", PyVal.str ""),
   ("gift_box", PyVal.str ""),
   ("refillable_status", PyVal.str ""),
   ("custom_status", PyVal.str ""),
   ("moq_cases", PyVal.vnone)]

/-- Numeric-field branch of the cleaner: sentinels / `0` / `"0"` become
`None`; otherwise coerce `float(str(raw).replace(',', '.'))`, and for
never-zero fields collapse an exact zero to `None`. -/
def cleanNumeric (neverZero : Bool) (raw : PyVal) : Except String (Option ℚ) := do
  let sent ← inSentinels raw
  if sent || pyEq raw (PyVal.int 0) || pyEq raw (PyVal.str "0") then
    pure Option.none
  else
    match parseFloat ((pyStr raw).replace "," ".") with
    | Option.none => pure Option.none
    | some v => if neverZero && decide (v = 0) then pure Option.none else pure (some v)

/-- Encode the numeric result back as a `PyVal` (`None` or a float). -/
def optQ : Option ℚ → PyVal
  | Option.none => PyVal.vnone
  | some v => PyVal.float v

/-- `alcohol_percent` branch: sentinels, `0`, `"0"`, `"0%"` become blank; a
string already ending in `%` is kept stripped; numeric(-looking) values get
the decimal-fraction safety net. -/
def cleanAlcohol (raw : PyVal) : Except String String := do
  let sent ← inSentinels raw
  if sent || pyEq raw (PyVal.int 0) || pyEq raw (PyVal.str "0")
      || pyEq raw (PyVal.str "0%") then
    pure ""
  else
    match raw with
    | PyVal.str s0 =>
      if endsPct s0.trim then pure s0.trim
      else
        let s := s0.trim
        if s = "" then pure ""
        else
          match parseFloat ((s.replace "%" "").replace "," ".") with
          | Option.none => pure ""
          | some fval =>
            if fval = 0 then pure ""
            else if fval < 1 then pure (fmtPct (round2 (fval * 100)))
            else pure (fmtPct fval)
    | _ =>
      match toQ raw with
      | some fval =>
        if fval = 0 then pure ""
        else if fval < 1 then pure (fmtPct (round2 (fval * 100)))
        else pure (fmtPct fval)
      | Option.none => pure ""

/-- `refillable_status` strict whitelist branch. -/
def cleanRefillable (raw : PyVal) : Except String String := do
  let sent ← inSentinels raw
  if sent then pure ""
  else
    let val := (pyStr raw).trim.toUpper
    if val = "RF" ∨ val = "REF" ∨ val = "REFILLABLE" then pure "REF"
    else if val = "NRF" ∨ val = "NON-REFILLABLE" ∨ val = "NON REFILLABLE" then
      pure "NRF"
    else pure ""

/-- `currency` branch: EURO variants map to EUR, otherwise uppercase-trim. -/
def cleanCurrency (raw : PyVal) : Except String String := do
  let sent ← inSentinels raw
  if sent then pure ""
  else
    let val := (pyStr raw).trim.toUpper
    if val = "EURO" ∨ val = "EUROS" ∨ val = "€" then pure "EUR" else pure val

/-- One field of the cleaner's main loop, dispatching exactly as the
`if`/`elif` chain in the source. -/
def cleanField (field : String) (dflt raw : PyVal) : Except String PyVal :=
  if field ∈ NUMERIC_FIELDS then
    (cleanNumeric (field ∈ NUMERIC_NEVER_ZERO) raw).map optQ
  else if field = "alcohol_percent" then (cleanAlcohol raw).map PyVal.str
  else if field = "refillable_status" then (cleanRefillable raw).map PyVal.str
  else if field = "currency" then (cleanCurrency raw).map PyVal.str
  else
    match dflt with
    | PyVal.list _ =>
      Except.ok (match raw with
        | PyVal.list xs => PyVal.list xs
        | _ => PyVal.list [])
    | PyVal.bool _ => do
      let sent ← inSentinels raw
      pure (PyVal.bool (if sent then false else pyBool raw))
    | PyVal.float _ =>
      Except.ok (PyVal.float ((pyFloat raw).getD 0))
    | _ => do
      let sent ← inSentinels raw
      pure (PyVal.str (if sent then "" else pyStr raw))

/-- The field loop of `clean_product_data`. -/
def cleanFields :
    List (String × PyVal) → List (String × PyVal) →
      Except String (List (String × PyVal))
  | [], _ => Except.ok []
  | (f, d) :: rest, product => do
    let v ← cleanField f d (dget product f d)
    let tail ← cleanFields rest product
    pure ((f, v) :: tail)

/-- The `product_key` derivation: spaces, `/` and `&` become underscores,
while `.` and the apostrophe are removed, then uppercase. -/
def deriveKey (n : String) : String :=
  (((((n.replace " " "_").replace "/" "_").replace "&" "_").replace
      "." "").replace (String.singleton (Char.ofNat 39)) "").toUpper

/-- `clean_product_data` (src/core/openai_client_claude.py:1017): schema
enforcement over the fixed field set, then the product-key auto-generation
post-step.  A Python exception (TypeError from hashing an unhashable value)
is the `Except.error` case. -/
def clean_product_data (product : List (String × PyVal)) :
    Except String (List (String × PyVal)) :=
  match cleanFields schemaDefaults product with
  | Except.error e => Except.error e
  | Except.ok cleaned =>
    let key := dget cleaned "product_key" (PyVal.str "")
    let name := dget cleaned "product_name" (PyVal.str "")
    Except.ok
      (if !(pyBool key) && pyBool name then
        dset cleaned "product_key" (PyVal.str (deriveKey (pyStr name)))
      else cleaned)

/-- `Except.isOk` spelled out for the statements below. -/
def isOkE {α : Type} : Except String α → Bool
  | Except.ok _ => true
  | Except.error _ => false


/-! ## JSON decoding (model of `json.loads`) -/

def braceL : Char := Char.ofNat 123
def braceR : Char := Char.ofNat 125

def skipWs : List Char → List Char
  | [] => []
  | c :: cs =>
    if c = ' ' ∨ c = '\t' ∨ c = '\n' ∨ c = '\r' then skipWs cs else c :: cs

/-- The escape table of JSON string decoding (quote, backslash, slash and
the n/t/r control escapes; other escapes are outside the model). -/
def escChar (e : Char) : Option Char :=
  if e = Char.ofNat 34 ∨ e = Char.ofNat 92 ∨ e = Char.ofNat 47 then some e
  else if e = 'n' then some (Char.ofNat 10)
  else if e = 't' then some (Char.ofNat 9)
  else if e = 'r' then some (Char.ofNat 13)
  else Option.none

/-- JSON string body after the opening quote (common escapes only). -/
def parseJString : ℕ → List Char → Option (List Char × List Char)
  | 0, _ => Option.none
  | _, [] => Option.none
  | fuel + 1, c :: cs =>
    if c = '"' then some ([], cs)
    else if c = '\\' then
      match cs with
      | e :: cs2 =>
        match escChar e with
        | some ec => (parseJString fuel cs2).map (fun p => (ec :: p.1, p.2))
        | Option.none => Option.none
      | [] => Option.none
    else (parseJString fuel cs).map (fun p => (c :: p.1, p.2))

def parseJExp (cs : List Char) : Option ((Bool × ℕ) × List Char) :=
  let sp := takeSign cs
  let dp := takeDigits sp.2
  if dp.1 = [] then Option.none else some ((sp.1, digitsVal dp.1), dp.2)

/-- JSON number: int when it has no fraction and no exponent, else float. -/
def parseJNumber (cs : List Char) : Option (PyVal × List Char) :=
  let sp : Bool × List Char :=
    match cs with
    | '-' :: r => (true, r)
    | _ => (false, cs)
  let ip := takeDigits sp.2
  if ip.1 = [] then Option.none
  else
    let fpOpt : Option (List Char × List Char) :=
      match ip.2 with
      | '.' :: r =>
        let fp := takeDigits r
        if fp.1 = [] then Option.none else some fp
      | _ => some ([], ip.2)
    match fpOpt with
    | Option.none => Option.none
    | some (fds, rest1) =>
      let exOpt : Option (Option (Bool × ℕ) × List Char) :=
        match rest1 with
        | 'e' :: r => (parseJExp r).map (fun p => (some p.1, p.2))
        | 'E' :: r => (parseJExp r).map (fun p => (some p.1, p.2))
        | _ => some (Option.none, rest1)
      match exOpt with
      | Option.none => Option.none
      | some (ex, rest2) =>
        if fds = [] ∧ ex = Option.none then
          some (PyVal.int (if sp.1 then -(digitsVal ip.1 : ℤ) else (digitsVal ip.1 : ℤ)), rest2)
        else
          let base : ℚ := (digitsVal ip.1 : ℚ) + (digitsVal fds : ℚ) / 10 ^ fds.length
          let v : ℚ :=
            match ex with
            | Option.none => base
            | some (eneg, e) => if eneg then base / 10 ^ e else base * 10 ^ e
          some (PyVal.float (if sp.1 then -v else v), rest2)

def dropLit : List Char → List Char → Option (List Char)
  | [], cs => some cs
  | l :: ls, c :: cs => if c = l then dropLit ls cs else Option.none
  | _ :: _, [] => Option.none

mutual

def parseJValue : ℕ → List Char → Option (PyVal × List Char)
  | 0, _ => Option.none
  | fuel + 1, cs0 =>
    match skipWs cs0 with
    | [] => Option.none
    | c :: rest =>
      if c = '"' then
        (parseJString (fuel + 1) rest).map (fun p => (PyVal.str (String.mk p.1), p.2))
      else if c = braceL then parseJObj fuel rest
      else if c = '[' then parseJArr fuel rest
      else if c = 'n' then (dropLit ['u', 'l', 'l'] rest).map (fun r => (PyVal.vnone, r))
      else if c = 't' then (dropLit ['r', 'u', 'e'] rest).map (fun r => (PyVal.bool true, r))
      else if c = 'f' then
        (dropLit ['a', 'l', 's', 'e'] rest).map (fun r => (PyVal.bool false, r))
      else parseJNumber (c :: rest)

def parseJObj : ℕ → List Char → Option (PyVal × List Char)
  | 0, _ => Option.none
  | fuel + 1, cs =>
    match skipWs cs with
    | [] => Option.none
    | c :: rest =>
      if c = braceR then some (PyVal.dict [], rest)
      else parseJMembers fuel [] (c :: rest)

def parseJMembers : ℕ → List (String × PyVal) → List Char → Option (PyVal × List Char)
  | 0, _, _ => Option.none
  | fuel + 1, acc, cs =>
    match skipWs cs with
    | '"' :: rest =>
      match parseJString (fuel + 1) rest with
      | some (k, r1) =>
        match skipWs r1 with
        | ':' :: r2 =>
          match parseJValue fuel r2 with
          | some (v, r3) =>
            let acc2 := dset acc (String.mk k) v
            match skipWs r3 with
            | ',' :: r4 => parseJMembers fuel acc2 r4
            | c2 :: r4 => if c2 = braceR then some (PyVal.dict acc2, r4) else Option.none
            | [] => Option.none
          | Option.none => Option.none
        | _ => Option.none
      | Option.none => Option.none
    | _ => Option.none

def parseJArr : ℕ → List Char → Option (PyVal × List Char)
  | 0, _ => Option.none
  | fuel + 1, cs =>
    match skipWs cs with
    | [] => Option.none
    | c :: rest =>
      if c = ']' then some (PyVal.list [], rest)
      else parseJElems fuel [] (c :: rest)

def parseJElems : ℕ → List PyVal → List Char → Option (PyVal × List Char)
  | 0, _, _ => Option.none
  | fuel + 1, acc, cs =>
    match parseJValue fuel cs with
    | some (v, r1) =>
      match skipWs r1 with
      | ',' :: r2 => parseJElems fuel (acc ++ [v]) r2
      | ']' :: r2 => some (PyVal.list (acc ++ [v]), r2)
      | _ => Option.none
    | Option.none => Option.none

end

/-- Model of strict `json.loads`: a single JSON value with nothing but
whitespace after it; `none` is a `JSONDecodeError`. -/
def jsonParse (s : String) : Option PyVal :=
  match parseJValue (s.length * 2 + 8) s.data with
  | some (v, rest) => if skipWs rest = [] then some v else Option.none
  | Option.none => Option.none

/-! ## Truncation repair and salvage (src/core/openai_client_claude.py:795) -/

/-- Scan of the repair loop: cumulative open/close brace counts over the
suffix starting at the first `{`; cut (inclusive) where the counts meet. -/
def braceCutAux : List Char → ℕ → ℕ → List Char → Option (List Char)
  | [], _, _, _ => Option.none
  | c :: cs, o, cl, acc =>
    if c = braceL then braceCutAux cs (o + 1) cl (c :: acc)
    else if c = braceR then
      if cl + 1 = o then some ((c :: acc).reverse)
      else braceCutAux cs o (cl + 1) (c :: acc)
    else braceCutAux cs o cl (c :: acc)

/-- `content.strip().endswith('}')`. -/
def endsBraceR (s : String) : Bool := s.data.getLast? = some braceR

/-- The JSON-repair step: when the stripped text does not end in `}`, cut
from the first `{` to the first position where the brace counts balance;
otherwise (or when no cut exists) leave the text unchanged. -/
def repairCut (content : String) : String :=
  if endsBraceR content.trim then content
  else
    match content.data.findIdx? (fun c => c = braceL) with
    | Option.none => content
    | some j =>
      match braceCutAux (content.data.drop j) 0 0 [] with
      | some cut => String.mk cut
      | Option.none => content

/-- The single greedy `\x7b.*\x7d` (DOTALL) match of the salvage pass: from
the first `{` to the last `}`, when the former precedes the latter. -/
def salvageMatch (content : String) : Option String :=
  let cs := content.data
  match cs.findIdx? (fun c => c = braceL) with
  | some f =>
    match cs.reverse.findIdx? (fun c => c = braceR) with
    | some rif =>
      let l := cs.length - 1 - rif
      if f < l then some (String.mk ((cs.drop f).take (l - f + 1))) else Option.none
    | Option.none => Option.none
  | Option.none => Option.none

/-- `[clean_product_data(p) for p in products]`: all-or-nothing, a non-dict
element raises `AttributeError` inside the comprehension. -/
def cleanBatch : List PyVal → Except String (List (List (String × PyVal)))
  | [] => Except.ok []
  | p :: ps => do
    let c ←
      match p with
      | PyVal.dict d => clean_product_data d
      | _ => Except.error "AttributeError"
    let rest ← cleanBatch ps
    pure (c :: rest)

/-- The products-list extraction of `extract_from_file`: a dict uses its
`products` key (a non-list value there makes iteration fail → `none`), a
bare list is used directly, anything else yields no products. -/
def productsOf : PyVal → Option (List PyVal)
  | PyVal.dict d =>
    match dlook d "products" with
    | some (PyVal.list l) => some l
    | some _ => Option.none
    | Option.none => some []
  | PyVal.list l => some l
  | _ => some []

/-- One Excel batch response of `extract_from_file`: repair, strict decode,
products extraction and cleaning; on decode failure the regex salvage pass.
Returns the records appended to the aggregate for this batch. -/
def processBatchContent (content0 : String) : List (List (String × PyVal)) :=
  let content := repairCut content0
  match jsonParse content with
  | some v =>
    match productsOf v with
    | some l =>
      match cleanBatch l with
      | Except.ok cs => cs
      | Except.error _ => []
    | Option.none => []
  | Option.none =>
    match salvageMatch content with
    | some m =>
      match jsonParse m with
      | some (PyVal.dict d) =>
        match dlook d "products" with
        | some (PyVal.list l) =>
          match cleanBatch l with
          | Except.ok cs => cs
          | Except.error _ => []
        | some _ => []
        | Option.none => []
      | _ => []
    | Option.none => []

/-! ## Exchange rates and the conversion pass
(src/core/openai_client_claude.py:21,56,686) -/

/-- `get_exchange_rate_to_eur`: known-blank/EUR currencies short-circuit to
1.0 without contacting the service; otherwise the external lookup is asked
(second component: the currencies actually fetched), and any failure
(`oracle` returning `none`) degrades to 1.0. -/
def get_exchange_rate_to_eur (oracle : String → Option ℚ) (currency : PyVal) :
    ℚ × List String :=
  if pyIn currency [PyVal.str "Not Found", PyVal.str "", PyVal.vnone, PyVal.str "EUR"] then
    (1, [])
  else ((oracle (pyStr currency)).getD 1, [pyStr currency])

/-- `convert_price_to_eur`. -/
def convert_price_to_eur (price : PyVal) (rate : ℚ) : PyVal :=
  if pyIn price [PyVal.vnone, PyVal.str "Not Found", PyVal.str "", PyVal.int 0, PyVal.str "0"] then
    PyVal.vnone
  else
    match pyFloat price with
    | Option.none => PyVal.vnone
    | some p => if p = 0 then PyVal.vnone else PyVal.float (round2 (p * rate))

/-- One iteration of the EUR-conversion loop in `extract_offer` /
`extract_from_file` over a cleaned record. -/
def convertOne (oracle : String → Option ℚ) (p : List (String × PyVal)) :
    List (String × PyVal) × List String :=
  let currency := dget p "currency" (PyVal.str "")
  if pyIn currency [PyVal.str "", PyVal.vnone, PyVal.str "EUR"] then
    let p1 := dset p "price_per_unit_eur" ((dlook p "price_per_unit").getD PyVal.vnone)
    let p2 := dset p1 "price_per_case_eur" ((dlook p1 "price_per_case").getD PyVal.vnone)
    (p2, [])
  else
    let er := get_exchange_rate_to_eur oracle currency
    let pu := (dlook p "price_per_unit").getD PyVal.vnone
    let p1 :=
      if !(pyIn pu [PyVal.vnone, PyVal.str "", PyVal.int 0]) then
        dset p "price_per_unit_eur" (convert_price_to_eur pu er.1)
      else p
    let pc := (dlook p1 "price_per_case").getD PyVal.vnone
    let p2 :=
      if !(pyIn pc [PyVal.vnone, PyVal.str "", PyVal.int 0]) then
        dset p1 "price_per_case_eur" (convert_price_to_eur pc er.1)
      else p1
    (p2, er.2)

/-- The whole conversion pass over the aggregate; the second component is
the sequence of rate fetches actually performed. -/
def convertAll (oracle : String → Option ℚ) :
    List (List (String × PyVal)) → List (List (String × PyVal)) × List String
  | [] => ([], [])
  | p :: ps =>
    let h := convertOne oracle p
    let t := convertAll oracle ps
    (h.1 :: t.1, h.2 ++ t.2)

/-! ## The text-mode orchestrator `extract_offer`
(src/core/openai_client_claude.py:642) -/

/-- Outcome of one unit of work's interaction with the interpretation
service: a transport-level exception, or the raw response text. -/
inductive ChunkOutcome where
  | transportError (msg : String) : ChunkOutcome
  | content (s : String) : ChunkOutcome

/-- Per-chunk processing inside `extract_offer`'s try-block: decode the
response, take the `products` list (default `[]`), clean every candidate.
Any exception is the `Except.error` case, caught by the loop. -/
def processChunk : ChunkOutcome → Except String (List (List (String × PyVal)))
  | ChunkOutcome.transportError m => Except.error m
  | ChunkOutcome.content s =>
    match jsonParse s with
    | Option.none => Except.error "JSONDecodeError"
    | some (PyVal.dict d) =>
      match (dlook d "products").getD (PyVal.list []) with
      | PyVal.list l => cleanBatch l
      | _ => Except.error "TypeError"
    | some _ => Except.error "AttributeError"

/-- The chunk loop: failed units are recorded (index, cause) and skipped —
`continue` — while successful units extend the aggregate in order. -/
def collect : ℕ → List ChunkOutcome → List (List (String × PyVal)) × List (ℕ × String)
  | _, [] => ([], [])
  | i, o :: rest =>
    let r := collect (i + 1) rest
    match processChunk o with
    | Except.ok ps => (ps ++ r.1, r.2)
    | Except.error e => (r.1, (i, e) :: r.2)

/-- `extract_offer`, parameterised by the per-unit service outcomes (in
planner order) and the rate oracle.  Returns the converted aggregate, the
recorded unit errors, and the rate-fetch log. -/
def extract_offer (outcomes : List ChunkOutcome) (oracle : String → Option ℚ) :
    List (List (String × PyVal)) × List (ℕ × String) × List String :=
  let c := collect 0 outcomes
  let conv := convertAll oracle c.1
  (conv.1, c.2, conv.2)

/-! ## Webhook delivery (src/core/webhook_client.py:10) -/

/-- One transport attempt's outcome: an exception, or an HTTP status. -/
inductive TOutcome where
  | exc (msg : String) : TOutcome
  | resp (status : ℕ) : TOutcome

/-- The payload envelope posted on every attempt. -/
structure Envelope where
  job_id : String
  delivery_id : String
  payload_type : String
  data : List (String × PyVal)

/-- Success test: `response.status_code in [200, 201, 202]`. -/
def attemptOk : TOutcome → Bool
  | TOutcome.resp s => s = 200 ∨ s = 201 ∨ s = 202
  | TOutcome.exc _ => false

/-- The retry loop of `send_consolidated_webhook`: at most `remaining` more
attempts, sleeping `5 * (attempt + 1)` after each failed non-final attempt.
Returns (result, posted envelopes, sleeps). -/
def webhookLoop (transport : ℕ → TOutcome) (env : Envelope) :
    ℕ → ℕ → Bool × List Envelope × List ℕ
  | _, 0 => (false, [], [])
  | attempt, r + 1 =>
    if attemptOk (transport attempt) then (true, [env], [])
    else
      let rest := webhookLoop transport env (attempt + 1) r
      (rest.1, env :: rest.2.1, (if r = 0 then [] else [5 * (attempt + 1)]) ++ rest.2.2)

/-- `send_consolidated_webhook`: the envelope (with its delivery id) is
built once, before the loop; `max_retries = 3`; exceptions are caught inside
the loop, so the function always returns a boolean. -/
def send_consolidated_webhook (transport : ℕ → TOutcome) (job_id payload_type : String)
    (data : List (String × PyVal)) (delivery_id : Option String) (now : ℕ) :
    Bool × List Envelope × List ℕ :=
  let did := delivery_id.getD ("direct_" ++ toString now)
  webhookLoop transport (Envelope.mk job_id did payload_type data) 0 3

/-! ## The worker `process_offer` and the job store
(src/workers/processor.py:8) -/

/-- The ingest payload fields `process_offer` reads (`IngestRequest`). -/
structure Payload where
  text_body : Option String
  attachments : List String
  supplier_name : String
  supplier_email : String
  source_channel : String
  source_message_id : String
  source_filename : String

/-- Modelled from the spec: the job-state registries `JOB_STATUS` and
`JOB_RESULTS` of `workers/state.py` (absent from src/) are, per spec §6 and
the §9 design notes, plain process-wide maps keyed by job id; writes are the
plain `d[k] = v` assignments appearing in `process_offer`. -/
structure JobStore where
  status : List (String × String)
  results : List (String × PyVal)

def sset (d : List (String × String)) (k v : String) : List (String × String) :=
  match d with
  | [] => [(k, v)]
  | e :: rest => if e.1 == k then (k, v) :: rest else e :: sset rest k v

def slook (d : List (String × String)) (k : String) : Option String :=
  (d.find? (fun e => e.1 == k)).map (fun e => e.2)

/-- The `OfferItem` stored by a successful run of `process_offer`
(src/workers/processor.py:15): every product field is a literal constant;
only `supplier_name`, `supplier_email` and the three `source_*` fields come
from the payload, plus the fresh `uid` and the current time. -/
def mkOffer (uid now : String) (p : Payload) : List (String × PyVal) :=
  [("uid", PyVal.str uid),
   ("product_name", PyVal.str "Freixenet Carta Nevada Extra Dry"),
   ("product_key", PyVal.str "freixenet_freixenet_carta_nevada_extra_dry_bottle"),
   ("brand", PyVal.str "Freixenet"),
   ("category", PyVal.vnone),
   ("sub_category", PyVal.vnone),
   ("packaging", PyVal.str "Bottle"),
   ("packaging_raw", PyVal.str "bottle"),
   ("bottle_or_can_type", PyVal.vnone),
   ("unit_volume_ml", PyVal.int 750),
   ("units_per_case", PyVal.int 6),
   ("cases_per_pallet", PyVal.vnone),
   ("quantity_case", PyVal.vnone),
   ("gift_box", PyVal.vnone),
   ("refillable_status", PyVal.str "NRF"),
   ("currency", PyVal.str "EUR"),
   ("price_per_unit", PyVal.float (32667 / 10000)),
   ("price_per_unit_eur", PyVal.float (32667 / 10000)),
   ("price_per_case", PyVal.float (196 / 10)),
   ("price_per_case_eur", PyVal.float (196 / 10)),
   ("fx_rate", PyVal.int 1),
   ("fx_date", PyVal.str "2025-12-19"),
   ("alcohol_percent", PyVal.str "11%"),
   ("origin_country", PyVal.vnone),
   ("supplier_country", PyVal.str ""),
   ("incoterm", PyVal.str "DAP"),
   ("location", PyVal.str "Loendersloot"),
   ("lead_time", PyVal.str "2 weeks"),
   ("moq_cases", PyVal.vnone),
   ("valid_until", PyVal.vnone),
   ("offer_date", PyVal.str now),
   ("date_received", PyVal.str now),
   ("best_before_date", PyVal.vnone),
   ("vintage", PyVal.vnone),
   ("supplier_name", PyVal.str p.supplier_name),
   ("supplier_email", PyVal.str p.supplier_email),
   ("supplier_reference", PyVal.vnone),
   ("source_channel", PyVal.str p.source_channel),
   ("source_message_id", PyVal.str p.source_message_id),
   ("source_filename", PyVal.str p.source_filename),
   ("confidence_score", PyVal.float (85 / 100)),
   ("needs_manual_review", PyVal.bool false),
   ("error_flags", PyVal.list []),
   ("custom_status", PyVal.vnone),
   ("processing_version", PyVal.str "1.0.0"),
   ("ean_code", PyVal.vnone),
   ("label_language", PyVal.str "EN"),
   ("product_reference", PyVal.vnone)]

/-- `process_offer`: set status `processing`, run the extraction (`extract`
models `await extract_offer(payload.text_body or "")`; its value is
discarded), then either store the constant offer and status `done`, or
store the error description and status `failed`.  `uid`/`now` stand for the
fresh uuid and `datetime.utcnow()`. -/
def process_offer (extract : String → Except String PyVal) (uid now : String)
    (payload : Payload) (job_id : String) (st : JobStore) : JobStore :=
  let st1 : JobStore := JobStore.mk (sset st.status job_id "processing") st.results
  match extract (payload.text_body.getD "") with
  | Except.ok _ =>
    JobStore.mk (sset st1.status job_id "done")
      (dset st1.results job_id (PyVal.dict (mkOffer uid now payload)))
  | Except.error e =>
    JobStore.mk (sset st1.status job_id "failed")
      (dset st1.results job_id
        (PyVal.dict [("job_id", PyVal.str job_id), ("error", PyVal.str e)]))

/-! ## Helper lemmas about the store operations -/

theorem dlook_dset_self (d : List (String × PyVal)) (k : String) (v : PyVal) :
    dlook (dset d k v) k = some v := by
  induction d with
  | nil => simp [dset, dlook]
  | cons e rest ih =>
    by_cases h : e.1 == k
    · simp [dset, dlook, h]
    · simp only [dset, h, Bool.false_eq_true, if_false]
      simpa [dlook, List.find?, h] using ih

theorem dlook_dset_ne (d : List (String × PyVal)) (k k' : String) (v : PyVal)
    (h : k' ≠ k) : dlook (dset d k v) k' = dlook d k' := by
  have hkk : (k == k') = false := beq_eq_false_iff_ne.mpr (Ne.symm h)
  induction d with
  | nil => simp [dset, dlook, List.find?, hkk]
  | cons e rest ih =>
    by_cases he : e.1 == k
    · have hek : e.1 = k := by rwa [beq_iff_eq] at he
      have hek' : (e.1 == k') = false := by rw [hek]; exact hkk
      simp [dset, dlook, he, List.find?, hkk, hek']
    · simp only [dset, he, Bool.false_eq_true, if_false]
      by_cases hk' : e.1 == k'
      · simp [dlook, List.find?, hk']
      · simpa [dlook, List.find?, hk'] using ih

theorem dset_keys (d : List (String × PyVal)) (k : String) (v : PyVal) :
    k ∈ d.map Prod.fst → (dset d k v).map Prod.fst = d.map Prod.fst := by
  induction d with
  | nil => intro h; simp at h
  | cons e rest ih =>
    intro h
    by_cases he : e.1 == k
    · have hek : e.1 = k := by rwa [beq_iff_eq] at he
      simp [dset, he, hek]
    · have hne : ¬ e.1 = k := by simpa using he
      simp only [dset, he, Bool.false_eq_true, if_false, List.map_cons]
      rw [List.map_cons] at h
      rcases List.mem_cons.mp h with h1 | h2
      · exact absurd h1.symm hne
      · rw [ih h2]

theorem slook_sset_self (d : List (String × String)) (k v : String) :
    slook (sset d k v) k = some v := by
  induction d with
  | nil => simp [sset, slook]
  | cons e rest ih =>
    by_cases h : e.1 == k
    · simp [sset, slook, h]
    · simp only [sset, h, Bool.false_eq_true, if_false]
      simpa [slook, List.find?, h] using ih

/-! ## C8 — webhook delivery retry -/

/-- C8: Delivery retry law.  With a transport failing on attempts 0 and 1 and
returning HTTP 200 on attempt 2, `send_consolidated_webhook` returns `true`
after exactly 3 attempts, posting the identical envelope — in particular the
same `delivery_id` — on every attempt, with the linearly increasing backoff
sleeps `[5, 10]` between attempts.  And for any transport `t2`, a `false`
result occurs only once all 3 attempts have failed (exceptions are caught
inside the loop, so the function is total and never raises). -/
theorem webhook_retry_law (transport t2 : ℕ → TOutcome) (job_id ptype : String)
    (data : List (String × PyVal)) (did : String) (now : ℕ)
    (h0 : attemptOk (transport 0) = false) (h1 : attemptOk (transport 1) = false)
    (h2 : transport 2 = TOutcome.resp 200) :
    send_consolidated_webhook transport job_id ptype data (some did) now
      = (true, [Envelope.mk job_id did ptype data, Envelope.mk job_id did ptype data,
                Envelope.mk job_id did ptype data], [5, 10])
    ∧ ((send_consolidated_webhook t2 job_id ptype data (some did) now).1 = false →
        attemptOk (t2 0) = false ∧ attemptOk (t2 1) = false ∧ attemptOk (t2 2) = false) := by
  constructor
  · show webhookLoop transport _ 0 3 = _
    rw [show (3 : ℕ) = 2 + 1 from rfl, webhookLoop, h0]
    rw [show (2 : ℕ) = 1 + 1 from rfl, webhookLoop, h1]
    rw [show (1 : ℕ) = 0 + 1 from rfl, webhookLoop, h2]
    simp [attemptOk]
  · intro hf
    by_cases a0 : attemptOk (t2 0) <;> by_cases a1 : attemptOk (t2 1) <;>
        by_cases a2 : attemptOk (t2 2) <;>
      simp_all [send_consolidated_webhook,
        show (3 : ℕ) = 0 + 1 + 1 + 1 from rfl, webhookLoop]

/-- Witness for C8 at a concrete fail-fail-succeed transport and a concrete
always-failing transport. -/
theorem webhook_retry_law_witness :
    send_consolidated_webhook
        (fun i => if i = 2 then TOutcome.resp 200 else TOutcome.exc "boom")
        "job-1" "job_summary" [] (some "d-1") 0
      = (true, [Envelope.mk "job-1" "d-1" "job_summary" [],
                Envelope.mk "job-1" "d-1" "job_summary" [],
                Envelope.mk "job-1" "d-1" "job_summary" []], [5, 10])
    ∧ ((send_consolidated_webhook (fun _ => TOutcome.exc "down")
          "job-1" "job_summary" [] (some "d-1") 0).1 = false →
        attemptOk (TOutcome.exc "down") = false
        ∧ attemptOk (TOutcome.exc "down") = false
        ∧ attemptOk (TOutcome.exc "down") = false) :=
  webhook_retry_law
    (fun i => if i = 2 then TOutcome.resp 200 else TOutcome.exc "boom")
    (fun _ => TOutcome.exc "down") "job-1" "job_summary" [] "d-1" 0 rfl rfl rfl

/-! ## C1 — the fixed stored record of `process_offer` -/

/-- C1: A successful `process_offer` run stores the constant `OfferItem`:
every product field (name, key, brand, packaging, volumes, prices, incoterm,
location, alcohol percent, …) is a literal in the source, independent of the
extraction result; only `supplier_name`, `supplier_email` and the `source_*`
provenance fields come from the payload (plus the fresh uid/timestamp).  Two
payloads agreeing on those five fields — e.g. differing only in `text_body`
and attachments — therefore store identical records: the second run below
stores byte-for-byte the record of the first. -/
theorem processor_stores_fixed_record
    (e1 e2 : String → Except String PyVal) (uid now : String)
    (p1 p2 : Payload) (job_id : String) (st1 st2 : JobStore)
    (hn : p1.supplier_name = p2.supplier_name)
    (he : p1.supplier_email = p2.supplier_email)
    (hc : p1.source_channel = p2.source_channel)
    (hm : p1.source_message_id = p2.source_message_id)
    (hf : p1.source_filename = p2.source_filename)
    (h1 : isOkE (e1 (p1.text_body.getD "")) = true)
    (h2 : isOkE (e2 (p2.text_body.getD "")) = true) :
    slook (process_offer e1 uid now p1 job_id st1).status job_id = some "done"
    ∧ dlook (process_offer e1 uid now p1 job_id st1).results job_id
        = some (PyVal.dict (mkOffer uid now p1))
    ∧ dlook (process_offer e2 uid now p2 job_id st2).results job_id
        = some (PyVal.dict (mkOffer uid now p1))
    ∧ dget (mkOffer uid now p1) "product_name" PyVal.vnone
        = PyVal.str "Freixenet Carta Nevada Extra Dry"
    ∧ dget (mkOffer uid now p1) "product_key" PyVal.vnone
        = PyVal.str "freixenet_freixenet_carta_nevada_extra_dry_bottle"
    ∧ dget (mkOffer uid now p1) "alcohol_percent" PyVal.vnone = PyVal.str "11%"
    ∧ dget (mkOffer uid now p1) "price_per_case" PyVal.vnone
        = PyVal.float (196 / 10)
    ∧ dget (mkOffer uid now p1) "supplier_name" PyVal.vnone
        = PyVal.str p1.supplier_name := by
  have hoff : mkOffer uid now p2 = mkOffer uid now p1 := by
    unfold mkOffer; rw [hn, he, hc, hm, hf]
  cases hx1 : e1 (p1.text_body.getD "") with
  | error e => rw [hx1] at h1; simp [isOkE] at h1
  | ok v1 =>
    cases hx2 : e2 (p2.text_body.getD "") with
    | error e => rw [hx2] at h2; simp [isOkE] at h2
    | ok v2 =>
      refine ⟨?_, ?_, ?_, rfl, rfl, rfl, rfl, rfl⟩
      · simp only [process_offer, hx1]
        exact slook_sset_self _ _ _
      · simp only [process_offer, hx1]
        exact dlook_dset_self _ _ _
      · simp only [process_offer, hx2, hoff]
        exact dlook_dset_self _ _ _

/-- Witness for C1: two payloads sharing supplier/source fields but with
different document text and attachments. -/
theorem processor_stores_fixed_record_witness :
    slook (process_offer (fun _ => Except.ok PyVal.vnone) "u" "t"
        (Payload.mk (some "offer text A") [] "Sup" "s@x.com" "email" "m1" "f1")
        "job" (JobStore.mk [] [])).status "job" = some "done"
    ∧ dlook (process_offer (fun _ => Except.ok PyVal.vnone) "u" "t"
        (Payload.mk (some "offer text A") [] "Sup" "s@x.com" "email" "m1" "f1")
        "job" (JobStore.mk [] [])).results "job"
        = some (PyVal.dict (mkOffer "u" "t"
            (Payload.mk (some "offer text A") [] "Sup" "s@x.com" "email" "m1" "f1")))
    ∧ dlook (process_offer (fun _ => Except.ok (PyVal.str "other")) "u" "t"
        (Payload.mk (some "entirely different text") ["attachment.xlsx"]
          "Sup" "s@x.com" "email" "m1" "f1")
        "job" (JobStore.mk [] [])).results "job"
        = some (PyVal.dict (mkOffer "u" "t"
            (Payload.mk (some "offer text A") [] "Sup" "s@x.com" "email" "m1" "f1")))
    ∧ dget (mkOffer "u" "t"
          (Payload.mk (some "offer text A") [] "Sup" "s@x.com" "email" "m1" "f1"))
        "product_name" PyVal.vnone = PyVal.str "Freixenet Carta Nevada Extra Dry"
    ∧ dget (mkOffer "u" "t"
          (Payload.mk (some "offer text A") [] "Sup" "s@x.com" "email" "m1" "f1"))
        "product_key" PyVal.vnone
        = PyVal.str "freixenet_freixenet_carta_nevada_extra_dry_bottle"
    ∧ dget (mkOffer "u" "t"
          (Payload.mk (some "offer text A") [] "Sup" "s@x.com" "email" "m1" "f1"))
        "alcohol_percent" PyVal.vnone = PyVal.str "11%"
    ∧ dget (mkOffer "u" "t"
          (Payload.mk (some "offer text A") [] "Sup" "s@x.com" "email" "m1" "f1"))
        "price_per_case" PyVal.vnone = PyVal.float (196 / 10)
    ∧ dget (mkOffer "u" "t"
          (Payload.mk (some "offer text A") [] "Sup" "s@x.com" "email" "m1" "f1"))
        "supplier_name" PyVal.vnone = PyVal.str "Sup" :=
  processor_stores_fixed_record (fun _ => Except.ok PyVal.vnone)
    (fun _ => Except.ok (PyVal.str "other")) "u" "t"
    (Payload.mk (some "offer text A") [] "Sup" "s@x.com" "email" "m1" "f1")
    (Payload.mk (some "entirely different text") ["attachment.xlsx"]
      "Sup" "s@x.com" "email" "m1" "f1")
    "job" (JobStore.mk [] []) (JobStore.mk [] [])
    rfl rfl rfl rfl rfl rfl rfl

/-! ## C5 — job terminal-state writes -/

/-- C5 counterexample: the claim says that after a job has reached `done`, a
later `failed` write is rejected/ignored and the stored result unchanged.
In the code the terminal writes are unconditional map assignments: running a
failing attempt for the same job id after a successful one flips the status
to `failed` and replaces the stored result with the error description. -/
theorem job_done_then_failed_cex :
    slook (process_offer (fun _ => Except.ok PyVal.vnone) "u1" "t1"
        (Payload.mk Option.none [] "s" "e" "ch" "m" "f") "job"
        (JobStore.mk [] [])).status "job" = some "done"
    ∧ slook (process_offer (fun _ => Except.error "boom") "u2" "t2"
        (Payload.mk Option.none [] "s" "e" "ch" "m" "f") "job"
        (process_offer (fun _ => Except.ok PyVal.vnone) "u1" "t1"
          (Payload.mk Option.none [] "s" "e" "ch" "m" "f") "job"
          (JobStore.mk [] []))).status "job" = some "failed"
    ∧ dlook (process_offer (fun _ => Except.error "boom") "u2" "t2"
        (Payload.mk Option.none [] "s" "e" "ch" "m" "f") "job"
        (process_offer (fun _ => Except.ok PyVal.vnone) "u1" "t1"
          (Payload.mk Option.none [] "s" "e" "ch" "m" "f") "job"
          (JobStore.mk [] []))).results "job"
        = some (PyVal.dict [("job_id", PyVal.str "job"), ("error", PyVal.str "boom")])
    ∧ dlook (process_offer (fun _ => Except.error "boom") "u2" "t2"
        (Payload.mk Option.none [] "s" "e" "ch" "m" "f") "job"
        (process_offer (fun _ => Except.ok PyVal.vnone) "u1" "t1"
          (Payload.mk Option.none [] "s" "e" "ch" "m" "f") "job"
          (JobStore.mk [] []))).results "job"
      ≠ dlook (process_offer (fun _ => Except.ok PyVal.vnone) "u1" "t1"
          (Payload.mk Option.none [] "s" "e" "ch" "m" "f") "job"
          (JobStore.mk [] [])).results "job" := by
  refine ⟨by with_unfolding_all rfl, by with_unfolding_all rfl,
    by with_unfolding_all rfl, ?_⟩
  have hnew : dlook (process_offer (fun _ => Except.error "boom") "u2" "t2"
      (Payload.mk Option.none [] "s" "e" "ch" "m" "f") "job"
      (process_offer (fun _ => Except.ok PyVal.vnone) "u1" "t1"
        (Payload.mk Option.none [] "s" "e" "ch" "m" "f") "job"
        (JobStore.mk [] []))).results "job"
      = some (PyVal.dict [("job_id", PyVal.str "job"), ("error", PyVal.str "boom")]) := by
    with_unfolding_all rfl
  have hold : dlook (process_offer (fun _ => Except.ok PyVal.vnone) "u1" "t1"
      (Payload.mk Option.none [] "s" "e" "ch" "m" "f") "job"
      (JobStore.mk [] [])).results "job"
      = some (PyVal.dict (mkOffer "u1" "t1"
          (Payload.mk Option.none [] "s" "e" "ch" "m" "f"))) := by
    with_unfolding_all rfl
  rw [hnew, hold]
  intro hcontra
  have hd := Option.some.inj hcontra
  have hlists : [("job_id", PyVal.str "job"), ("error", PyVal.str "boom")]
      = mkOffer "u1" "t1" (Payload.mk Option.none [] "s" "e" "ch" "m" "f") :=
    PyVal.dict.inj hd
  have := congrArg List.length hlists
  simp [mkOffer] at this

/-- C5 amended: terminal writes are last-writer-wins, not guarded.  For any
prior store state — including one where the job already reached `done` — a
failing run overwrites the status with `failed` and the stored result with
the error description. -/
theorem job_terminal_write_last_wins
    (extract : String → Except String PyVal) (uid now : String) (p : Payload)
    (job_id : String) (st : JobStore) (e : String)
    (h : extract (p.text_body.getD "") = Except.error e) :
    slook (process_offer extract uid now p job_id st).status job_id = some "failed"
    ∧ dlook (process_offer extract uid now p job_id st).results job_id
        = some (PyVal.dict [("job_id", PyVal.str job_id), ("error", PyVal.str e)]) := by
  simp only [process_offer, h]
  exact ⟨slook_sset_self _ _ _, dlook_dset_self _ _ _⟩

/-- Witness for C5's amended theorem, applied to a store in which the job
is already `done` with a stored offer. -/
theorem job_terminal_write_last_wins_witness :
    slook (process_offer (fun _ => Except.error "boom") "u2" "t2"
        (Payload.mk Option.none [] "s" "e" "ch" "m" "f") "job"
        (JobStore.mk [("job", "done")]
          [("job", PyVal.dict (mkOffer "u1" "t1"
              (Payload.mk Option.none [] "s" "e" "ch" "m" "f")))])).status "job"
      = some "failed"
    ∧ dlook (process_offer (fun _ => Except.error "boom") "u2" "t2"
        (Payload.mk Option.none [] "s" "e" "ch" "m" "f") "job"
        (JobStore.mk [("job", "done")]
          [("job", PyVal.dict (mkOffer "u1" "t1"
              (Payload.mk Option.none [] "s" "e" "ch" "m" "f")))])).results "job"
      = some (PyVal.dict [("job_id", PyVal.str "job"), ("error", PyVal.str "boom")]) :=
  job_terminal_write_last_wins (fun _ => Except.error "boom") "u2" "t2"
    (Payload.mk Option.none [] "s" "e" "ch" "m" "f") "job"
    (JobStore.mk [("job", "done")]
      [("job", PyVal.dict (mkOffer "u1" "t1"
          (Payload.mk Option.none [] "s" "e" "ch" "m" "f")))]) "boom" rfl

/-! ## Helper lemmas about `pyEq`/`pyIn` on numbers and the conversion pass -/

theorem pyEq_float_vnone (q : ℚ) : pyEq (PyVal.float q) PyVal.vnone = false := rfl

theorem pyEq_float_str (q : ℚ) (s : String) :
    pyEq (PyVal.float q) (PyVal.str s) = false := rfl

theorem pyEq_float_int_zero (q : ℚ) (hq : q ≠ 0) :
    pyEq (PyVal.float q) (PyVal.int 0) = false := by
  show (q == ((0 : ℤ) : ℚ)) = false
  simp [hq]

theorem pyIn_float_price_sentinels (q : ℚ) (hq : q ≠ 0) :
    pyIn (PyVal.float q)
      [PyVal.vnone, PyVal.str "Not Found", PyVal.str "", PyVal.int 0, PyVal.str "0"]
      = false := by
  simp [pyIn, List.any_cons, List.any_nil, pyEq_float_vnone, pyEq_float_str,
    pyEq_float_int_zero q hq]

theorem pyIn_float_skip_guard (q : ℚ) (hq : q ≠ 0) :
    pyIn (PyVal.float q) [PyVal.vnone, PyVal.str "", PyVal.int 0] = false := by
  simp [pyIn, List.any_cons, List.any_nil, pyEq_float_vnone, pyEq_float_str,
    pyEq_float_int_zero q hq]

theorem convert_price_float (q rate : ℚ) (hq : q ≠ 0) :
    convert_price_to_eur (PyVal.float q) rate = PyVal.float (round2 (q * rate)) := by
  unfold convert_price_to_eur
  rw [pyIn_float_price_sentinels q hq]
  simp [pyFloat, hq]

theorem get_rate_one_on_failure (oracle : String → Option ℚ) (cur : PyVal)
    (hfail : ∀ s, oracle s = Option.none) :
    (get_exchange_rate_to_eur oracle cur).1 = 1 := by
  unfold get_exchange_rate_to_eur
  split <;> simp [hfail]

/-- A lookup away from the two EUR keys passes through the conversion
untouched. -/
theorem convertOne_lookup_ne (oracle : String → Option ℚ)
    (r : List (String × PyVal)) (k : String)
    (hk1 : k ≠ "price_per_unit_eur") (hk2 : k ≠ "price_per_case_eur") :
    dlook (convertOne oracle r).1 k = dlook r k := by
  unfold convertOne
  dsimp only
  split
  · rw [dlook_dset_ne _ _ _ _ hk2, dlook_dset_ne _ _ _ _ hk1]
  · split <;> split <;>
      simp only [dlook_dset_ne _ _ _ _ hk2, dlook_dset_ne _ _ _ _ hk1]

/-- The unit-price conversion law on the else (non-EUR) branch. -/
theorem convertOne_unit_eur (oracle : String → Option ℚ)
    (r : List (String × PyVal)) (q : ℚ)
    (hguard : pyIn (dget r "currency" (PyVal.str ""))
        [PyVal.str "", PyVal.vnone, PyVal.str "EUR"] = false)
    (hpu : dlook r "price_per_unit" = some (PyVal.float q)) (hq : q ≠ 0) :
    dlook (convertOne oracle r).1 "price_per_unit_eur"
      = some (PyVal.float (round2 (q *
          (get_exchange_rate_to_eur oracle (dget r "currency" (PyVal.str ""))).1))) := by
  unfold convertOne
  dsimp only
  rw [hguard]
  simp only [Bool.false_eq_true, if_false, hpu, Option.getD_some,
    pyIn_float_skip_guard q hq, Bool.not_false, if_true,
    convert_price_float q _ hq]
  split
  · rw [dlook_dset_ne _ _ _ _ (by decide), dlook_dset_self]
  · rw [dlook_dset_self]

/-- When the unit price is the cleaned `None`, the else branch leaves the
`price_per_unit_eur` entry at its prior value. -/
theorem convertOne_unit_eur_skip (oracle : String → Option ℚ)
    (r : List (String × PyVal))
    (hguard : pyIn (dget r "currency" (PyVal.str ""))
        [PyVal.str "", PyVal.vnone, PyVal.str "EUR"] = false)
    (hpu : dlook r "price_per_unit" = some PyVal.vnone) :
    dlook (convertOne oracle r).1 "price_per_unit_eur"
      = dlook r "price_per_unit_eur" := by
  unfold convertOne
  dsimp only
  rw [hguard]
  simp only [Bool.false_eq_true, if_false, hpu, Option.getD_some]
  have : pyIn PyVal.vnone [PyVal.vnone, PyVal.str "", PyVal.int 0] = true := rfl
  simp only [this, Bool.not_true, Bool.false_eq_true, if_false]
  split
  · rw [dlook_dset_ne _ _ _ _ (by decide)]
  · rfl

theorem convertAll_records (oracle : String → Option ℚ)
    (rs : List (List (String × PyVal))) :
    (convertAll oracle rs).1 = rs.map (fun p => (convertOne oracle p).1) := by
  induction rs with
  | nil => rfl
  | cons p ps ih => simp [convertAll, ih]

theorem convertAll_fetches (oracle : String → Option ℚ)
    (rs : List (List (String × PyVal))) :
    (convertAll oracle rs).2 = rs.flatMap (fun p => (convertOne oracle p).2) := by
  induction rs with
  | nil => rfl
  | cons p ps ih => simp [convertAll, ih]

theorem convertOne_fetches (oracle : String → Option ℚ)
    (r : List (String × PyVal)) :
    (convertOne oracle r).2
      = if pyIn (dget r "currency" (PyVal.str ""))
            [PyVal.str "", PyVal.vnone, PyVal.str "EUR"] then []
        else (get_exchange_rate_to_eur oracle (dget r "currency" (PyVal.str ""))).2 := by
  unfold convertOne
  dsimp only
  split <;> rename_i h <;> simp [h]

/-! ## C6 — currency conversion fetches -/

/-- C6 counterexample: the claim says one rate fetch per distinct non-blank
non-EUR currency value in the aggregate.  Two records both carrying "USD"
cause two fetches (`["USD", "USD"]`), one per record — including for the
second record, which has no price to convert at all; moreover its
candidate-supplied `price_per_case_eur` (7) survives the pass instead of
being left null although its source `price_per_case` is null. -/
theorem currency_fetch_per_record_cex :
    (convertAll (fun _ => some (9 / 10))
      [(clean_product_data [("currency", PyVal.str "USD"),
          ("price_per_unit", PyVal.int 10)]).toOption.getD [],
       (clean_product_data [("currency", PyVal.str "USD"),
          ("price_per_case_eur", PyVal.int 7)]).toOption.getD []]).2
      = ["USD", "USD"]
    ∧ ((convertAll (fun _ => some (9 / 10))
      [(clean_product_data [("currency", PyVal.str "USD"),
          ("price_per_unit", PyVal.int 10)]).toOption.getD [],
       (clean_product_data [("currency", PyVal.str "USD"),
          ("price_per_case_eur", PyVal.int 7)]).toOption.getD []]).1.map
        (fun r => (dlook r "price_per_unit_eur", dlook r "price_per_case_eur")))
      = [(some (PyVal.float 9), some PyVal.vnone),
         (some PyVal.vnone, some (PyVal.float 7))] :=
  ⟨by with_unfolding_all rfl, by with_unfolding_all rfl⟩

/-- C6 amended: the conversion pass performs one rate fetch per record whose
currency is outside {"", None, "EUR"} (so duplicated currencies are fetched
repeatedly, not once per distinct value); for such a record a nonzero
numeric source price yields `round(price * rate, 2)` in the EUR field, while
a null source price leaves the EUR field at its prior (cleaned) value. -/
theorem currency_conversion_per_record (oracle : String → Option ℚ)
    (rs : List (List (String × PyVal))) (r : List (String × PyVal)) (q : ℚ) :
    (convertAll oracle rs).1 = rs.map (fun p => (convertOne oracle p).1)
    ∧ (convertAll oracle rs).2 = rs.flatMap (fun p => (convertOne oracle p).2)
    ∧ (convertOne oracle r).2
        = (if pyIn (dget r "currency" (PyVal.str ""))
              [PyVal.str "", PyVal.vnone, PyVal.str "EUR"] then []
           else (get_exchange_rate_to_eur oracle (dget r "currency" (PyVal.str ""))).2)
    ∧ (pyIn (dget r "currency" (PyVal.str ""))
          [PyVal.str "", PyVal.vnone, PyVal.str "EUR"] = false →
        dlook r "price_per_unit" = some (PyVal.float q) → q ≠ 0 →
        dlook (convertOne oracle r).1 "price_per_unit_eur"
          = some (PyVal.float (round2 (q *
              (get_exchange_rate_to_eur oracle
                (dget r "currency" (PyVal.str ""))).1))))
    ∧ (pyIn (dget r "currency" (PyVal.str ""))
          [PyVal.str "", PyVal.vnone, PyVal.str "EUR"] = false →
        dlook r "price_per_unit" = some PyVal.vnone →
        dlook (convertOne oracle r).1 "price_per_unit_eur"
          = dlook r "price_per_unit_eur") :=
  ⟨convertAll_records oracle rs, convertAll_fetches oracle rs,
   convertOne_fetches oracle r,
   fun hguard hpu hq => convertOne_unit_eur oracle r q hguard hpu hq,
   fun hguard hpu => convertOne_unit_eur_skip oracle r hguard hpu⟩

/-- Witness for C6's amended theorem at a concrete USD record. -/
theorem currency_conversion_per_record_witness :
    (convertAll (fun _ => some (9 / 10)) []).1 = ([] : List (List (String × PyVal))).map
        (fun p => (convertOne (fun _ => some (9 / 10)) p).1)
    ∧ (convertAll (fun _ => some (9 / 10)) []).2
        = ([] : List (List (String × PyVal))).flatMap
            (fun p => (convertOne (fun _ => some (9 / 10)) p).2)
    ∧ (convertOne (fun _ => some (9 / 10))
          ((clean_product_data [("currency", PyVal.str "USD"),
            ("price_per_unit", PyVal.int 10)]).toOption.getD [])).2
        = (if pyIn (dget ((clean_product_data [("currency", PyVal.str "USD"),
              ("price_per_unit", PyVal.int 10)]).toOption.getD [])
              "currency" (PyVal.str ""))
              [PyVal.str "", PyVal.vnone, PyVal.str "EUR"] then []
           else (get_exchange_rate_to_eur (fun _ => some (9 / 10))
              (dget ((clean_product_data [("currency", PyVal.str "USD"),
                ("price_per_unit", PyVal.int 10)]).toOption.getD [])
                "currency" (PyVal.str ""))).2)
    ∧ (pyIn (dget ((clean_product_data [("currency", PyVal.str "USD"),
            ("price_per_unit", PyVal.int 10)]).toOption.getD [])
            "currency" (PyVal.str ""))
          [PyVal.str "", PyVal.vnone, PyVal.str "EUR"] = false →
        dlook ((clean_product_data [("currency", PyVal.str "USD"),
            ("price_per_unit", PyVal.int 10)]).toOption.getD [])
            "price_per_unit" = some (PyVal.float 10) → (10 : ℚ) ≠ 0 →
        dlook (convertOne (fun _ => some (9 / 10))
            ((clean_product_data [("currency", PyVal.str "USD"),
              ("price_per_unit", PyVal.int 10)]).toOption.getD [])).1
            "price_per_unit_eur"
          = some (PyVal.float (round2 ((10 : ℚ) *
              (get_exchange_rate_to_eur (fun _ => some (9 / 10))
                (dget ((clean_product_data [("currency", PyVal.str "USD"),
                  ("price_per_unit", PyVal.int 10)]).toOption.getD [])
                  "currency" (PyVal.str ""))).1))))
    ∧ (pyIn (dget ((clean_product_data [("currency", PyVal.str "USD"),
            ("price_per_unit", PyVal.int 10)]).toOption.getD [])
            "currency" (PyVal.str ""))
          [PyVal.str "", PyVal.vnone, PyVal.str "EUR"] = false →
        dlook ((clean_product_data [("currency", PyVal.str "USD"),
            ("price_per_unit", PyVal.int 10)]).toOption.getD [])
            "price_per_unit" = some PyVal.vnone →
        dlook (convertOne (fun _ => some (9 / 10))
            ((clean_product_data [("currency", PyVal.str "USD"),
              ("price_per_unit", PyVal.int 10)]).toOption.getD [])).1
            "price_per_unit_eur"
          = dlook ((clean_product_data [("currency", PyVal.str "USD"),
              ("price_per_unit", PyVal.int 10)]).toOption.getD [])
              "price_per_unit_eur") :=
  currency_conversion_per_record (fun _ => some (9 / 10)) []
    ((clean_product_data [("currency", PyVal.str "USD"),
      ("price_per_unit", PyVal.int 10)]).toOption.getD []) 10

/-! ## C7 — rate-lookup failure handling -/

/-- C7 counterexample: with a rate lookup that always fails, a USD record's
price is converted with the default rate 1.0 (10 → 10.0), but
`needs_manual_review` stays `false` — the code never raises the flag on a
lookup failure, contrary to the claim. -/
theorem rate_failure_no_review_flag_cex :
    ((convertAll (fun _ => Option.none)
      [(clean_product_data [("currency", PyVal.str "USD"),
          ("price_per_unit", PyVal.int 10)]).toOption.getD []]).1.map
        (fun r => (dlook r "needs_manual_review", dlook r "price_per_unit_eur")))
      = [(some (PyVal.bool false), some (PyVal.float 10))] := by
  with_unfolding_all rfl

/-- C7 amended: when the exchange-rate lookup fails, `get_exchange_rate_to_eur`
returns the default rate 1.0 and the job continues — the conversion applies
`round(price * 1.0, 2)` — but the affected record's `needs_manual_review`
flag is NOT modified: the conversion pass writes only the two EUR price
fields. -/
theorem rate_failure_defaults_to_one (oracle : String → Option ℚ)
    (r : List (String × PyVal)) (cur : PyVal) (q : ℚ)
    (hfail : ∀ s, oracle s = Option.none) :
    (get_exchange_rate_to_eur oracle cur).1 = 1
    ∧ dlook (convertOne oracle r).1 "needs_manual_review"
        = dlook r "needs_manual_review"
    ∧ (pyIn (dget r "currency" (PyVal.str ""))
          [PyVal.str "", PyVal.vnone, PyVal.str "EUR"] = false →
        dlook r "price_per_unit" = some (PyVal.float q) → q ≠ 0 →
        dlook (convertOne oracle r).1 "price_per_unit_eur"
          = some (PyVal.float (round2 (q * 1)))) := by
  refine ⟨get_rate_one_on_failure oracle cur hfail,
    convertOne_lookup_ne oracle r _ (by decide) (by decide),
    fun hguard hpu hq => ?_⟩
  rw [convertOne_unit_eur oracle r q hguard hpu hq,
    get_rate_one_on_failure oracle _ hfail]

/-- Witness for C7's amended theorem at a concrete USD record and an
always-failing oracle. -/
theorem rate_failure_defaults_to_one_witness :
    (get_exchange_rate_to_eur (fun _ => Option.none) (PyVal.str "USD")).1 = 1
    ∧ dlook (convertOne (fun _ => Option.none)
          ((clean_product_data [("currency", PyVal.str "USD"),
            ("price_per_unit", PyVal.int 10)]).toOption.getD [])).1
        "needs_manual_review"
        = dlook ((clean_product_data [("currency", PyVal.str "USD"),
            ("price_per_unit", PyVal.int 10)]).toOption.getD [])
            "needs_manual_review"
    ∧ (pyIn (dget ((clean_product_data [("currency", PyVal.str "USD"),
            ("price_per_unit", PyVal.int 10)]).toOption.getD [])
            "currency" (PyVal.str ""))
          [PyVal.str "", PyVal.vnone, PyVal.str "EUR"] = false →
        dlook ((clean_product_data [("currency", PyVal.str "USD"),
            ("price_per_unit", PyVal.int 10)]).toOption.getD [])
            "price_per_unit" = some (PyVal.float 10) → (10 : ℚ) ≠ 0 →
        dlook (convertOne (fun _ => Option.none)
            ((clean_product_data [("currency", PyVal.str "USD"),
              ("price_per_unit", PyVal.int 10)]).toOption.getD [])).1
            "price_per_unit_eur"
          = some (PyVal.float (round2 ((10 : ℚ) * 1)))) :=
  rate_failure_defaults_to_one (fun _ => Option.none)
    ((clean_product_data [("currency", PyVal.str "USD"),
      ("price_per_unit", PyVal.int 10)]).toOption.getD [])
    (PyVal.str "USD") 10 (fun _ => rfl)

/-! ## C3 — partial-failure isolation in the chunk loop -/

theorem collect_all_ok (l : List ChunkOutcome) (i : ℕ)
    (h : ∀ o ∈ l, isOkE (processChunk o) = true) :
    collect i l = (l.flatMap (fun o => (processChunk o).toOption.getD []), []) := by
  induction l generalizing i with
  | nil => rfl
  | cons o rest ih =>
    have ho := h o (List.mem_cons_self o rest)
    cases hx : processChunk o with
    | error e => rw [hx] at ho; simp [isOkE] at ho
    | ok ps =>
      simp [collect, hx, Except.toOption,
        ih (i + 1) (fun o' ho' => h o' (List.mem_cons_of_mem _ ho'))]

theorem collect_split (post : List ChunkOutcome) (bad : ChunkOutcome)
    (cause : String) (hbad : processChunk bad = Except.error cause)
    (hpost : ∀ o ∈ post, isOkE (processChunk o) = true) :
    ∀ (pre : List ChunkOutcome) (i : ℕ),
      (∀ o ∈ pre, isOkE (processChunk o) = true) →
      collect i (pre ++ bad :: post)
        = ((pre ++ post).flatMap (fun o => (processChunk o).toOption.getD []),
           [(i + pre.length, cause)]) := by
  intro pre
  induction pre with
  | nil =>
    intro i _
    simp [collect, hbad, collect_all_ok post (i + 1) hpost]
  | cons o pre' ih =>
    intro i hpre
    have ho := hpre o (List.mem_cons_self o pre')
    cases hx : processChunk o with
    | error e => rw [hx] at ho; simp [isOkE] at ho
    | ok ps =>
      have ihx := ih (i + 1) (fun o' ho' => hpre o' (List.mem_cons_of_mem _ ho'))
      simp only [List.cons_append, collect, hx, List.append_eq]
      rw [ihx]
      simp [List.flatMap_cons, hx, Except.toOption]
      all_goals omega

/-- C3: Partial-failure isolation.  With units `pre ++ [bad] ++ post` where
only `bad` fails (any of: transport error, non-JSON content, empty content —
`processChunk bad = error cause` covers all three) and every other unit
succeeds, `extract_offer` still returns all records of the other units, in
planner order, fed through the currency-conversion pass, and records exactly
one unit error `(unitIndex = pre.length, cause)` instead of aborting. -/
theorem extract_offer_partial_failure_isolation
    (pre post : List ChunkOutcome) (bad : ChunkOutcome) (cause : String)
    (oracle : String → Option ℚ)
    (hbad : processChunk bad = Except.error cause)
    (hpre : ∀ o ∈ pre, isOkE (processChunk o) = true)
    (hpost : ∀ o ∈ post, isOkE (processChunk o) = true) :
    extract_offer (pre ++ bad :: post) oracle
      = ((convertAll oracle
            ((pre ++ post).flatMap (fun o => (processChunk o).toOption.getD []))).1,
         [(pre.length, cause)],
         (convertAll oracle
            ((pre ++ post).flatMap (fun o => (processChunk o).toOption.getD []))).2) := by
  unfold extract_offer
  rw [collect_split post bad cause hbad hpost pre 0 hpre]
  simp

/-- Witness for C3: three units, the middle one a transport error; both
healthy units return the benign response `{}` (no products). -/
theorem extract_offer_partial_failure_isolation_witness :
    extract_offer [ChunkOutcome.content "\x7b\x7d",
        ChunkOutcome.transportError "boom", ChunkOutcome.content "\x7b\x7d"]
        (fun _ => some 1)
      = ((convertAll (fun _ => some 1)
            (([ChunkOutcome.content "\x7b\x7d", ChunkOutcome.content "\x7b\x7d"]).flatMap
              (fun o => (processChunk o).toOption.getD []))).1,
         [(1, "boom")],
         (convertAll (fun _ => some 1)
            (([ChunkOutcome.content "\x7b\x7d", ChunkOutcome.content "\x7b\x7d"]).flatMap
              (fun o => (processChunk o).toOption.getD []))).2) :=
  extract_offer_partial_failure_isolation [ChunkOutcome.content "\x7b\x7d"]
    [ChunkOutcome.content "\x7b\x7d"] (ChunkOutcome.transportError "boom") "boom"
    (fun _ => some 1) rfl
    (fun o ho => by
      rw [List.mem_singleton] at ho; subst ho; with_unfolding_all rfl)
    (fun o ho => by
      rw [List.mem_singleton] at ho; subst ho; with_unfolding_all rfl)

/-! ## Helper lemmas about the field cleaner -/

theorem pyEq_str_vnone (t : String) : pyEq (PyVal.str t) PyVal.vnone = false := rfl

theorem pyEq_str_str (t u : String) : pyEq (PyVal.str t) (PyVal.str u) = (t == u) := rfl

theorem pyEq_str_int (t : String) (n : ℤ) : pyEq (PyVal.str t) (PyVal.int n) = false := rfl

theorem any_sentinel_str (t : String) :
    sentinelVals.any (fun v => pyEq (PyVal.str t) v) = decide (t ∈ sentinelStrings) := by
  rw [Bool.eq_iff_iff]
  simp [sentinelVals, sentinelStrings, List.any_cons, List.any_nil,
    pyEq_str_vnone, pyEq_str_str, beq_iff_eq]

theorem inSentinels_str (t : String) :
    inSentinels (PyVal.str t) = Except.ok (decide (t ∈ sentinelStrings)) := by
  unfold inSentinels
  simp [hashable, any_sentinel_str]

theorem cleanField_string_branch (f t : String)
    (hf : f ∉ NUMERIC_FIELDS) (h1 : f ≠ "alcohol_percent")
    (h2 : f ≠ "refillable_status") (h3 : f ≠ "currency") :
    cleanField f (PyVal.str "") (PyVal.str t)
      = Except.ok (PyVal.str (if t ∈ sentinelStrings then "" else t)) := by
  unfold cleanField
  rw [if_neg hf, if_neg h1, if_neg h2, if_neg h3]
  show (inSentinels (PyVal.str t)).bind _ = _
  rw [inSentinels_str]
  by_cases hm : t ∈ sentinelStrings <;> simp [hm, Except.bind, pyStr, pure, Except.pure]

theorem cleanFields_append (product : List (String × PyVal)) :
    ∀ (l1 l2 : List (String × PyVal)),
      cleanFields (l1 ++ l2) product
        = (cleanFields l1 product).bind (fun a =>
            (cleanFields l2 product).bind (fun b => Except.ok (a ++ b))) := by
  intro l1
  induction l1 with
  | nil =>
    intro l2
    cases h : cleanFields l2 product <;> simp [cleanFields, Except.bind, h]
  | cons e rest ih =>
    intro l2
    obtain ⟨f, d⟩ := e
    simp only [List.cons_append, cleanFields, ih l2]
    cases h1 : cleanField f d (dget product f d) with
    | error err => simp [Except.bind, bind, pure, Except.pure, h1, ih l2]
    | ok v =>
      cases h2 : cleanFields rest product with
      | error err => simp [Except.bind, bind, pure, Except.pure, h1, h2, ih l2]
      | ok tail =>
        cases h3 : cleanFields l2 product with
        | error err => simp [Except.bind, bind, pure, Except.pure, h1, h2, h3, ih l2]
        | ok b => simp [Except.bind, bind, pure, Except.pure, h1, h2, h3, ih l2]

theorem cleanFields_keys (product : List (String × PyVal)) :
    ∀ (l c : List (String × PyVal)), cleanFields l product = Except.ok c →
      c.map Prod.fst = l.map Prod.fst := by
  intro l
  induction l with
  | nil => intro c h; simp only [cleanFields] at h; cases h; rfl
  | cons e rest ih =>
    intro c h
    obtain ⟨f, d⟩ := e
    simp only [cleanFields] at h
    cases h1 : cleanField f d (dget product f d) with
    | error err => rw [h1] at h; simp [Except.bind, bind] at h
    | ok v =>
      rw [h1] at h
      cases h2 : cleanFields rest product with
      | error err => rw [h2] at h; simp [Except.bind, bind] at h
      | ok tail =>
        rw [h2] at h
        simp only [Except.bind, bind, pure, Except.pure, Except.ok.injEq] at h
        subst h
        simp [ih tail h2]

theorem cleanFields_dlook (product : List (String × PyVal)) :
    ∀ (l c : List (String × PyVal)), cleanFields l product = Except.ok c →
      ∀ f, dlook c f
        = (l.find? (fun e => e.1 == f)).bind
            (fun e => (cleanField e.1 e.2 (dget product e.1 e.2)).toOption) := by
  intro l
  induction l with
  | nil => intro c h f; simp only [cleanFields] at h; cases h; rfl
  | cons e rest ih =>
    intro c h f
    obtain ⟨g, d⟩ := e
    simp only [cleanFields] at h
    cases h1 : cleanField g d (dget product g d) with
    | error err => rw [h1] at h; simp [Except.bind, bind] at h
    | ok v =>
      rw [h1] at h
      cases h2 : cleanFields rest product with
      | error err => rw [h2] at h; simp [Except.bind, bind] at h
      | ok tail =>
        rw [h2] at h
        simp only [Except.bind, bind, pure, Except.pure, Except.ok.injEq] at h
        subst h
        by_cases hg : g == f
        · simp [dlook, List.find?, hg, h1, Except.toOption]
        · simp only [dlook, List.find?, hg]
          simpa [dlook] using ih tail h2 f

/-- Away from `product_key`, a lookup in the cleaned record is a lookup in
the field-loop output (the post-step touches only `product_key`). -/
theorem clean_dlook_ne_key (product m : List (String × PyVal))
    (hok : clean_product_data product = Except.ok m) (f : String)
    (hf : f ≠ "product_key") :
    dlook m f = (cleanFields schemaDefaults product).toOption.bind
      (fun c => dlook c f) := by
  unfold clean_product_data at hok
  cases hc : cleanFields schemaDefaults product with
  | error e => rw [hc] at hok; cases hok
  | ok cleaned =>
    rw [hc] at hok
    injection hok with hm
    subst hm
    simp only [Except.toOption, Option.bind_some]
    split
    · rw [dlook_dset_ne _ _ _ _ hf]; rfl
    · rfl

theorem cleanNumeric_never_zero (raw : PyVal) (o : Option ℚ)
    (h : cleanNumeric true raw = Except.ok o) : o ≠ some 0 := by
  unfold cleanNumeric at h
  cases hs : inSentinels raw with
  | error e => rw [hs] at h; simp [Except.bind, bind] at h
  | ok sent =>
    rw [hs] at h
    simp only [Except.bind, bind, pure, Except.pure] at h
    split at h
    · cases h; simp
    · split at h
      · cases h; simp
      · split at h
        · cases h; simp
        · rename_i v hveq hcond
          cases h
          simp only [Bool.true_and, Bool.not_eq_true, decide_eq_false_iff_not] at hcond
          intro hco
          injection hco with hv0
          exact hcond (by simp [hv0])

theorem cleanRefillable_vals (raw : PyVal) (s : String)
    (h : cleanRefillable raw = Except.ok s) : s = "" ∨ s = "REF" ∨ s = "NRF" := by
  unfold cleanRefillable at h
  cases hs : inSentinels raw with
  | error e => rw [hs] at h; simp [Except.bind, bind] at h
  | ok sent =>
    rw [hs] at h
    simp only [Except.bind, bind, pure, Except.pure] at h
    split at h
    · cases h; exact Or.inl rfl
    · split at h
      · cases h; exact Or.inr (Or.inl rfl)
      · split at h
        · cases h; exact Or.inr (Or.inr rfl)
        · cases h; exact Or.inl rfl

theorem endsPct_append (x : String) : endsPct (x ++ "%") = true := by
  simp [endsPct, String.data_append]

theorem fmtPct_endsPct (q : ℚ) : endsPct (fmtPct q) = true := by
  unfold fmtPct
  split <;> exact endsPct_append _

theorem cleanAlcohol_shape (raw : PyVal) (s : String)
    (h : cleanAlcohol raw = Except.ok s) : s = "" ∨ endsPct s = true := by
  unfold cleanAlcohol at h
  cases hs : inSentinels raw with
  | error e => rw [hs] at h; simp [Except.bind, bind] at h
  | ok sent =>
    rw [hs] at h
    simp only [Except.bind, bind, pure, Except.pure] at h
    split at h
    · cases h; exact Or.inl rfl
    · split at h
      · rename_i s0
        split at h
        · rename_i hp
          cases h
          exact Or.inr hp
        · split at h
          · cases h; exact Or.inl rfl
          · split at h
            · cases h; exact Or.inl rfl
            · split at h
              · cases h; exact Or.inl rfl
              · split at h
                · cases h; exact Or.inr (fmtPct_endsPct _)
                · cases h; exact Or.inr (fmtPct_endsPct _)
      · split at h
        · split at h
          · cases h; exact Or.inl rfl
          · split at h
            · cases h; exact Or.inr (fmtPct_endsPct _)
            · cases h; exact Or.inr (fmtPct_endsPct _)
        · cases h; exact Or.inl rfl

theorem cleanAlcohol_float (x : ℚ) :
    cleanAlcohol (PyVal.float x)
      = Except.ok (if x = 0 then "" else if x < 1 then fmtPct (round2 (x * 100))
          else fmtPct x) := by
  unfold cleanAlcohol
  rw [show inSentinels (PyVal.float x) = Except.ok false from rfl]
  simp only [Except.bind, bind, pure, Except.pure]
  rw [show pyEq (PyVal.float x) (PyVal.int 0) = (x == ((0 : ℤ) : ℚ)) from rfl]
  rw [show pyEq (PyVal.float x) (PyVal.str "0") = false from rfl]
  rw [show pyEq (PyVal.float x) (PyVal.str "0%") = false from rfl]
  simp only [Bool.or_false, Bool.false_or, Int.cast_zero]
  by_cases hx : x = 0
  · simp [hx]
  · simp [hx, toQ]
    split <;> rfl

theorem cleanAlcohol_str_pct (s : String)
    (hsent : s ∉ sentinelStrings) (h0 : s ≠ "0") (h0p : s ≠ "0%")
    (hp : endsPct s.trim = true) :
    cleanAlcohol (PyVal.str s) = Except.ok s.trim := by
  unfold cleanAlcohol
  rw [inSentinels_str]
  simp only [Except.bind, bind, pure, Except.pure]
  rw [show (decide (s ∈ sentinelStrings) || pyEq (PyVal.str s) (PyVal.int 0)
      || pyEq (PyVal.str s) (PyVal.str "0")
      || pyEq (PyVal.str s) (PyVal.str "0%")) = false from by
    simp [pyEq_str_int, pyEq_str_str, hsent, h0, h0p]]
  simp [hp]

theorem cleanFields_ok_of (product : List (String × PyVal)) :
    ∀ l, (∀ e ∈ l, isOkE (cleanField e.1 e.2 (dget product e.1 e.2)) = true) →
      ∃ c, cleanFields l product = Except.ok c := by
  intro l
  induction l with
  | nil => exact fun _ => ⟨[], rfl⟩
  | cons e rest ih =>
    intro h
    obtain ⟨f, d⟩ := e
    have h1 := h (f, d) (List.mem_cons_self _ _)
    cases hx : cleanField f d (dget product f d) with
    | error e2 => rw [hx] at h1; simp [isOkE] at h1
    | ok v =>
      obtain ⟨c, hc⟩ := ih (fun e he => h e (List.mem_cons_of_mem _ he))
      exact ⟨(f, v) :: c,
        by simp [cleanFields, hx, hc, Except.bind, bind, pure, Except.pure]⟩

/-- When the post-step guard is down (blank name or present key), the
cleaner returns the loop output unchanged. -/
theorem clean_ok_of_fields (product c : List (String × PyVal))
    (hc : cleanFields schemaDefaults product = Except.ok c)
    (hcond : (!(pyBool (dget c "product_key" (PyVal.str "")))
        && pyBool (dget c "product_name" (PyVal.str ""))) = false) :
    clean_product_data product = Except.ok c := by
  unfold clean_product_data
  rw [hc]
  dsimp only
  rw [hcond]
  rfl

/-- When the guard fires, the key is derived from the name. -/
theorem clean_ok_of_fields_derive (product c : List (String × PyVal))
    (hc : cleanFields schemaDefaults product = Except.ok c)
    (hcond : (!(pyBool (dget c "product_key" (PyVal.str "")))
        && pyBool (dget c "product_name" (PyVal.str ""))) = true) :
    clean_product_data product
      = Except.ok (dset c "product_key"
          (PyVal.str (deriveKey (pyStr (dget c "product_name" (PyVal.str "")))))) := by
  unfold clean_product_data
  rw [hc]
  dsimp only
  rw [hcond]
  rfl

/-- Looking up the alcohol field of a single-field candidate reduces to the
alcohol branch of the cleaner. -/
theorem clean_alcohol_lookup (v : PyVal) (s1 : String)
    (hv : cleanAlcohol v = Except.ok s1) :
    (clean_product_data [("alcohol_percent", v)]).toOption.bind
        (fun m => dlook m "alcohol_percent") = some (PyVal.str s1) := by
  obtain ⟨c, hc⟩ := cleanFields_ok_of [("alcohol_percent", v)] schemaDefaults (by
    intro e he
    fin_cases he <;>
      first
        | (with_unfolding_all rfl)
        | (rw [show cleanField "alcohol_percent" (PyVal.str "")
              (dget [("alcohol_percent", v)] "alcohol_percent" (PyVal.str ""))
              = (cleanAlcohol v).map PyVal.str from rfl, hv]; rfl))
  have hkey : dlook c "product_key" = some (PyVal.str "") := by
    rw [cleanFields_dlook [("alcohol_percent", v)] schemaDefaults c hc "product_key"]
    with_unfolding_all rfl
  have hname : dlook c "product_name" = some (PyVal.str "") := by
    rw [cleanFields_dlook [("alcohol_percent", v)] schemaDefaults c hc "product_name"]
    with_unfolding_all rfl
  have halc : dlook c "alcohol_percent" = some (PyVal.str s1) := by
    rw [cleanFields_dlook [("alcohol_percent", v)] schemaDefaults c hc "alcohol_percent"]
    rw [show (schemaDefaults.find? (fun e => e.1 == "alcohol_percent")).bind
        (fun e => (cleanField e.1 e.2
          (dget [("alcohol_percent", v)] e.1 e.2)).toOption)
        = ((cleanAlcohol v).map PyVal.str).toOption from rfl]
    rw [hv]
    rfl
  have hcp : clean_product_data [("alcohol_percent", v)] = Except.ok c :=
    clean_ok_of_fields _ c hc (by simp [dget, hkey, hname, pyBool])
  rw [hcp]
  simpa [Except.toOption] using halc

/-! ## C4 — the alcohol_percent law -/

/-- C4 counterexample: the claim says `clean(\x7balcohol_percent: x\x7d)` for
`0 < x < 1` yields `"\x7bx*100\x7d%"`.  For `x = 0.123456` the code rounds
`x*100` to two decimals — `round(12.3456, 2) = 12.35` — and yields
`"12.35%"`, not `"12.3456%"`. -/
theorem alcohol_percent_rounding_cex :
    (clean_product_data [("alcohol_percent", PyVal.float (123456 / 1000000))]).toOption.bind
        (fun m => dlook m "alcohol_percent")
      = some (PyVal.str "12.35%")
    ∧ "12.35%" ≠ "12.3456%" :=
  ⟨by with_unfolding_all rfl, by decide⟩

/-- C4 amended: for a numeric input `x` to `alcohol_percent`, the cleaner
yields `""` when `x = 0`, `"\x7bround(x*100, 2)\x7d%"` (two-decimal
round-half-even, integral values rendered without a decimal point) when
`x < 1`, and `"\x7bx\x7d%"` when `x ≥ 1`; a raw string whose stripped form
ends in `%` is kept stripped — except the exact raw sentinels
(`"0"`, `"0%"`, the sentinel words and blanks), which yield `""`. -/
theorem alcohol_percent_law (x : ℚ) (s : String) :
    (clean_product_data [("alcohol_percent", PyVal.float x)]).toOption.bind
        (fun m => dlook m "alcohol_percent")
      = some (PyVal.str (if x = 0 then ""
          else if x < 1 then fmtPct (round2 (x * 100)) else fmtPct x))
    ∧ (s ∉ sentinelStrings → s ≠ "0" → s ≠ "0%" → endsPct s.trim = true →
        (clean_product_data [("alcohol_percent", PyVal.str s)]).toOption.bind
            (fun m => dlook m "alcohol_percent")
          = some (PyVal.str s.trim)) :=
  ⟨clean_alcohol_lookup _ _ (cleanAlcohol_float x),
   fun hs h0 h0p hp =>
     clean_alcohol_lookup _ _ (cleanAlcohol_str_pct s hs h0 h0p hp)⟩

/-- Witness for C4 at `x = 0.375` (a decimal fraction: `"37.5%"`) and the
raw string `" 40% "` (kept stripped: `"40%"`). -/
theorem alcohol_percent_law_witness :
    (clean_product_data [("alcohol_percent", PyVal.float (375 / 1000))]).toOption.bind
        (fun m => dlook m "alcohol_percent")
      = some (PyVal.str (if (375 / 1000 : ℚ) = 0 then ""
          else if (375 / 1000 : ℚ) < 1 then fmtPct (round2 ((375 / 1000 : ℚ) * 100))
          else fmtPct (375 / 1000)))
    ∧ (" 40% " ∉ sentinelStrings → " 40% " ≠ "0" → " 40% " ≠ "0%" →
        endsPct " 40% ".trim = true →
        (clean_product_data [("alcohol_percent", PyVal.str " 40% ")]).toOption.bind
            (fun m => dlook m "alcohol_percent")
          = some (PyVal.str " 40% ".trim)) :=
  alcohol_percent_law (375 / 1000) " 40% "

theorem clean_fields_of_ok (product m : List (String × PyVal))
    (hok : clean_product_data product = Except.ok m) :
    ∃ c, cleanFields schemaDefaults product = Except.ok c := by
  unfold clean_product_data at hok
  cases hc : cleanFields schemaDefaults product with
  | error e => rw [hc] at hok; cases hok
  | ok c => exact ⟨c, rfl⟩

theorem clean_keys (product m : List (String × PyVal))
    (hok : clean_product_data product = Except.ok m) :
    m.map Prod.fst = schemaDefaults.map Prod.fst := by
  unfold clean_product_data at hok
  cases hc : cleanFields schemaDefaults product with
  | error e => rw [hc] at hok; cases hok
  | ok cleaned =>
    rw [hc] at hok
    injection hok with hm
    subst hm
    have hkeys := cleanFields_keys product schemaDefaults cleaned hc
    split
    · rw [dset_keys cleaned "product_key" _ (by rw [hkeys]; decide)]
      exact hkeys
    · exact hkeys

theorem cleanField_nnz_ne_zero (f : String) (hf : f ∈ NUMERIC_NEVER_ZERO)
    (d raw : PyVal) :
    (cleanField f d raw).toOption ≠ some (PyVal.float 0) := by
  intro hcontra
  have hnf : f ∈ NUMERIC_FIELDS := by fin_cases hf <;> decide
  have hz : decide (f ∈ NUMERIC_NEVER_ZERO) = true := decide_eq_true hf
  unfold cleanField at hcontra
  rw [if_pos hnf, hz] at hcontra
  cases hcn : cleanNumeric true raw with
  | error e => rw [hcn] at hcontra; simp [Except.map, Except.toOption] at hcontra
  | ok o =>
    rw [hcn] at hcontra
    simp only [Except.map, Except.toOption, Option.some.injEq] at hcontra
    cases o with
    | none => simp [optQ] at hcontra
    | some q =>
      simp only [optQ, PyVal.float.injEq] at hcontra
      exact cleanNumeric_never_zero raw (some q) hcn (by rw [hcontra])

theorem schema_find_str (f : String) (hf : f ∈ stringPassFields) :
    schemaDefaults.find? (fun e => e.1 == f) = some (f, PyVal.str "") := by
  fin_cases hf <;> rfl

theorem stringPass_props (f : String) (hf : f ∈ stringPassFields) :
    f ∉ NUMERIC_FIELDS ∧ f ≠ "alcohol_percent" ∧ f ≠ "refillable_status"
      ∧ f ≠ "currency" ∧ f ≠ "product_key" := by
  fin_cases hf <;> exact ⟨by decide, by decide, by decide, by decide, by decide⟩

/-! ## C2 — clean_product_data totality and schema safety -/

/-- C2 counterexample: `clean_product_data` is not total — an unhashable
value (a list) in a sentinel-checked field makes `raw in SENTINELS` raise
`TypeError`; and sentinel blanking applies only to the exact casings listed
in the code, so `"Null"` survives in a string field (and the `currency`
branch can even surface a sentinel by upper-casing: `"Null"` → `"NULL"`). -/
theorem clean_product_data_not_total_cex :
    isOkE (clean_product_data [("brand", PyVal.list [])]) = false
    ∧ (clean_product_data [("brand", PyVal.str "Null")]).toOption.bind
        (fun m => dlook m "brand") = some (PyVal.str "Null")
    ∧ (clean_product_data [("currency", PyVal.str "Null")]).toOption.bind
        (fun m => dlook m "currency") = some (PyVal.str "NULL") :=
  ⟨by with_unfolding_all rfl, by with_unfolding_all rfl, by with_unfolding_all rfl⟩

/-- C2 amended: when `clean_product_data` succeeds (every sentinel-checked
value hashable — lists/dicts raise `TypeError`), the result has exactly the
fixed schema fields; the never-zero numeric fields are never 0; a generic
string field passes a raw string through verbatim unless it is one of the
exact-casing sentinels (which blank); and the whitelisted
`refillable_status` / percent-shaped `alcohol_percent` fields never hold a
sentinel word. -/
theorem clean_product_data_safety (product m : List (String × PyVal))
    (f t s : String) (hok : clean_product_data product = Except.ok m) :
    m.map Prod.fst = schemaDefaults.map Prod.fst
    ∧ (f ∈ NUMERIC_NEVER_ZERO → dlook m f ≠ some (PyVal.float 0))
    ∧ (f ∈ stringPassFields → dget product f (PyVal.str "") = PyVal.str t →
        dlook m f = some (PyVal.str (if t ∈ sentinelStrings then "" else t)))
    ∧ (dlook m "refillable_status" = some (PyVal.str s) →
        s = "" ∨ s = "REF" ∨ s = "NRF")
    ∧ (dlook m "alcohol_percent" = some (PyVal.str s) →
        s = "" ∨ endsPct s = true) := by
  obtain ⟨c, hc⟩ := clean_fields_of_ok product m hok
  refine ⟨clean_keys product m hok, ?_, ?_, ?_, ?_⟩
  · intro hf hcontra
    have hne : f ≠ "product_key" := by
      intro he; subst he; simp [NUMERIC_NEVER_ZERO] at hf
    rw [clean_dlook_ne_key product m hok f hne, hc] at hcontra
    replace hcontra : dlook c f = some (PyVal.float 0) := hcontra
    rw [cleanFields_dlook product schemaDefaults c hc f] at hcontra
    fin_cases hf <;> exact cleanField_nnz_ne_zero _ (by decide) _ _ hcontra
  · intro hf ht
    obtain ⟨hp1, hp2, hp3, hp4, hp5⟩ := stringPass_props f hf
    rw [clean_dlook_ne_key product m hok f hp5, hc]
    show dlook c f = _
    rw [cleanFields_dlook product schemaDefaults c hc f, schema_find_str f hf]
    show (cleanField f (PyVal.str "") (dget product f (PyVal.str ""))).toOption = _
    rw [ht, cleanField_string_branch f t hp1 hp2 hp3 hp4]
    rfl
  · intro h4
    rw [clean_dlook_ne_key product m hok _ (by decide), hc] at h4
    replace h4 : dlook c "refillable_status" = some (PyVal.str s) := h4
    rw [cleanFields_dlook product schemaDefaults c hc "refillable_status"] at h4
    replace h4 : ((cleanRefillable
        (dget product "refillable_status" (PyVal.str ""))).map PyVal.str).toOption
        = some (PyVal.str s) := h4
    cases hcr : cleanRefillable (dget product "refillable_status" (PyVal.str "")) with
    | error e => rw [hcr] at h4; simp [Except.map, Except.toOption] at h4
    | ok s2 =>
      rw [hcr] at h4
      simp only [Except.map, Except.toOption, Option.some.injEq,
        PyVal.str.injEq] at h4
      subst h4
      exact cleanRefillable_vals _ s2 hcr
  · intro h5
    rw [clean_dlook_ne_key product m hok _ (by decide), hc] at h5
    replace h5 : dlook c "alcohol_percent" = some (PyVal.str s) := h5
    rw [cleanFields_dlook product schemaDefaults c hc "alcohol_percent"] at h5
    replace h5 : ((cleanAlcohol
        (dget product "alcohol_percent" (PyVal.str ""))).map PyVal.str).toOption
        = some (PyVal.str s) := h5
    cases hca : cleanAlcohol (dget product "alcohol_percent" (PyVal.str "")) with
    | error e => rw [hca] at h5; simp [Except.map, Except.toOption] at h5
    | ok s2 =>
      rw [hca] at h5
      simp only [Except.map, Except.toOption, Option.some.injEq,
        PyVal.str.injEq] at h5
      subst h5
      exact cleanAlcohol_shape _ s2 hca

/-- Witness for C2's amended theorem on the empty candidate (whose cleaned
record is exactly the schema defaults). -/
theorem clean_product_data_safety_witness :
    schemaDefaults.map Prod.fst = schemaDefaults.map Prod.fst
    ∧ ("brand" ∈ NUMERIC_NEVER_ZERO →
        dlook schemaDefaults "brand" ≠ some (PyVal.float 0))
    ∧ ("brand" ∈ stringPassFields →
        dget [] "brand" (PyVal.str "") = PyVal.str "" →
        dlook schemaDefaults "brand"
          = some (PyVal.str (if "" ∈ sentinelStrings then "" else "")))
    ∧ (dlook schemaDefaults "refillable_status" = some (PyVal.str "") →
        "" = "" ∨ "" = "REF" ∨ "" = "NRF")
    ∧ (dlook schemaDefaults "alcohol_percent" = some (PyVal.str "") →
        "" = "" ∨ endsPct "" = true) :=
  clean_product_data_safety [] schemaDefaults "brand" "" "" (by rfl)

/-! ## C10 — product_key derivation -/

theorem isOkE_map {α β : Type} (g : α → β) (e : Except String α) :
    isOkE (e.map g) = isOkE e := by cases e <;> rfl

/-- A raw string never makes a field cleaner raise. -/
theorem cleanField_str_ok (f : String) (d : PyVal) (t : String) :
    isOkE (cleanField f d (PyVal.str t)) = true := by
  unfold cleanField
  split
  · rw [isOkE_map]
    unfold cleanNumeric
    rw [inSentinels_str]
    simp only [Except.bind, bind, pure, Except.pure]
    repeat' (first | rfl | split)
  · split
    · rw [isOkE_map]
      unfold cleanAlcohol
      rw [inSentinels_str]
      simp only [Except.bind, bind, pure, Except.pure]
      repeat' (first | rfl | split)
    · split
      · rw [isOkE_map]
        unfold cleanRefillable
        rw [inSentinels_str]
        simp only [Except.bind, bind, pure, Except.pure]
        repeat' (first | rfl | split)
      · split
        · rw [isOkE_map]
          unfold cleanCurrency
          rw [inSentinels_str]
          simp only [Except.bind, bind, pure, Except.pure]
          repeat' (first | rfl | split)
        · split
          · rfl
          · simp only [inSentinels_str, Except.bind, bind, pure, Except.pure]
            rfl
          · rfl
          · simp only [inSentinels_str, Except.bind, bind, pure, Except.pure]
            rfl

/-- C10 counterexample: deriving the key from the name `"a.b"` yields
`"AB"` — the dot is removed, not replaced with an underscore as the claim
states (`"A_B"`). -/
theorem product_key_dot_cex :
    (clean_product_data [("product_name", PyVal.str "a.b")]).toOption.bind
        (fun m => dlook m "product_key") = some (PyVal.str "AB")
    ∧ "AB" ≠ "A_B" :=
  ⟨by with_unfolding_all rfl, by decide⟩

/-- C10 amended: when the cleaned `product_key` is blank and the cleaned
`product_name` is a non-blank string `n`, the key becomes `deriveKey n`:
spaces, `/` and `&` become underscores, while `.` and the apostrophe are
*removed*, then the result is upper-cased.  A key already present (a
non-sentinel string) is left unchanged. -/
theorem product_key_derivation (n k : String)
    (hn : n ∉ sentinelStrings) (hk : k ∉ sentinelStrings) :
    (clean_product_data [("product_key", PyVal.vnone),
        ("product_name", PyVal.str n)]).toOption.bind
        (fun m => dlook m "product_key")
      = some (PyVal.str (deriveKey n))
    ∧ (clean_product_data [("product_key", PyVal.str k),
        ("product_name", PyVal.str n)]).toOption.bind
        (fun m => dlook m "product_key")
      = some (PyVal.str k) := by
  have hne : n ≠ "" := fun h => hn (h ▸ (by decide : "" ∈ sentinelStrings))
  have hke : k ≠ "" := fun h => hk (h ▸ (by decide : "" ∈ sentinelStrings))
  constructor
  · obtain ⟨c, hc⟩ := cleanFields_ok_of
      [("product_key", PyVal.vnone), ("product_name", PyVal.str n)] schemaDefaults (by
        intro e he
        fin_cases he <;> with_unfolding_all rfl)
    have hkey : dlook c "product_key" = some (PyVal.str "") := by
      rw [cleanFields_dlook _ schemaDefaults c hc "product_key"]
      with_unfolding_all rfl
    have hname : dlook c "product_name" = some (PyVal.str n) := by
      rw [cleanFields_dlook _ schemaDefaults c hc "product_name",
        schema_find_str "product_name" (by decide)]
      show (cleanField "product_name" (PyVal.str "")
        (dget [("product_key", PyVal.vnone), ("product_name", PyVal.str n)]
          "product_name" (PyVal.str ""))).toOption = _
      rw [show dget [("product_key", PyVal.vnone), ("product_name", PyVal.str n)]
          "product_name" (PyVal.str "") = PyVal.str n from rfl]
      rw [cleanField_string_branch "product_name" n (by decide) (by decide)
        (by decide) (by decide)]
      rw [if_neg hn]
      rfl
    have hcp := clean_ok_of_fields_derive _ c hc (by
      simp [dget, hkey, hname, pyBool, hne])
    rw [hcp]
    simp only [Except.toOption, Option.some_bind]
    rw [dlook_dset_self]
    rw [show dget c "product_name" (PyVal.str "") = PyVal.str n by
      simp [dget, hname]]
    rfl
  · obtain ⟨c, hc⟩ := cleanFields_ok_of
      [("product_key", PyVal.str k), ("product_name", PyVal.str n)] schemaDefaults (by
        intro e he
        fin_cases he <;> with_unfolding_all rfl)
    have hkey : dlook c "product_key" = some (PyVal.str k) := by
      rw [cleanFields_dlook _ schemaDefaults c hc "product_key",
        show schemaDefaults.find? (fun e => e.1 == "product_key")
          = some ("product_key", PyVal.str "") from rfl]
      show (cleanField "product_key" (PyVal.str "")
        (dget [("product_key", PyVal.str k), ("product_name", PyVal.str n)]
          "product_key" (PyVal.str ""))).toOption = _
      rw [show dget [("product_key", PyVal.str k), ("product_name", PyVal.str n)]
          "product_key" (PyVal.str "") = PyVal.str k from rfl]
      rw [cleanField_string_branch "product_key" k (by decide) (by decide)
        (by decide) (by decide)]
      rw [if_neg hk]
      rfl
    have hcp := clean_ok_of_fields _ c hc (by
      simp [dget, hkey, pyBool, hke])
    rw [hcp]
    simpa [Except.toOption] using hkey

/-- Witness for C10 at a name containing every special character and a
present key. -/
theorem product_key_derivation_witness :
    (clean_product_data [("product_key", PyVal.vnone),
        ("product_name", PyVal.str "a.b c/d&e")]).toOption.bind
        (fun m => dlook m "product_key")
      = some (PyVal.str (deriveKey "a.b c/d&e"))
    ∧ (clean_product_data [("product_key", PyVal.str "KEY_1"),
        ("product_name", PyVal.str "a.b c/d&e")]).toOption.bind
        (fun m => dlook m "product_key")
      = some (PyVal.str "KEY_1") :=
  product_key_derivation "a.b c/d&e" "KEY_1" (by decide) (by decide)

/-! ## C9 — truncation repair in the batch response parser -/

/-- C9 counterexample: the response `[\x7b"a":1\x7d,\x7b"b":2\x7d,\x7b"c":`
is truncated mid-array with two fully-closed leading records, and brace
balance allows a clean cut — the repair cuts `\x7b"a":1\x7d` (the first
position where the brace counts balance) and strict decode succeeds — yet
the parser yields NO records: the cut substring is a bare object without a
`products` key, so the batch contributes nothing. -/
theorem truncated_array_no_records_cex :
    processBatchContent "[\x7b\"a\":1\x7d,\x7b\"b\":2\x7d,\x7b\"c\":" = []
    ∧ repairCut "[\x7b\"a\":1\x7d,\x7b\"b\":2\x7d,\x7b\"c\":" = "\x7b\"a\":1\x7d"
    ∧ jsonParse "\x7b\"a\":1\x7d" = some (PyVal.dict [("a", PyVal.int 1)])
    ∧ (cleanBatch [PyVal.dict [("a", PyVal.int 1)],
        PyVal.dict [("b", PyVal.int 2)]]).toOption.map List.length = some 2 :=
  ⟨by with_unfolding_all rfl, by with_unfolding_all rfl,
   by with_unfolding_all rfl, by with_unfolding_all rfl⟩

/-- C9 amended: when the stripped text does not end in `\x7d`, the repair
scans from the first `\x7b` counting braces and cuts (inclusive) at the
first position where the counts balance, then re-attempts strict decode on
the cut; the batch recovers records exactly when that cut decodes to an
object carrying a `products` list whose members clean successfully (e.g. a
complete object followed by trailing junk).  A response truncated inside an
object wrapper never balances (no cut, no records), and a truncated bare
array cuts to its first element only, which lacks `products` and yields
nothing. -/
theorem repair_cut_law (s : String) (j : ℕ) (cut : List Char)
    (d : List (String × PyVal)) (l : List PyVal)
    (cs : List (List (String × PyVal)))
    (hnb : endsBraceR s.trim = false)
    (hj : s.data.findIdx? (fun ch => ch = braceL) = some j)
    (hcut : braceCutAux (s.data.drop j) 0 0 [] = some cut)
    (hparse : jsonParse (String.mk cut) = some (PyVal.dict d))
    (hprod : dlook d "products" = some (PyVal.list l))
    (hclean : cleanBatch l = Except.ok cs) :
    repairCut s = String.mk cut ∧ processBatchContent s = cs := by
  have hrc : repairCut s = String.mk cut := by
    unfold repairCut
    rw [hnb]
    simp only [Bool.false_eq_true, if_false]
    rw [hj]
    dsimp only
    rw [hcut]
  refine ⟨hrc, ?_⟩
  unfold processBatchContent
  rw [hrc]
  dsimp only
  rw [hparse]
  simp only [productsOf, hprod]
  rw [hclean]

/-- Witness for C9's amended theorem: a complete object with one product,
followed by trailing junk that defeats the ends-with-brace test. -/
theorem repair_cut_law_witness :
    repairCut "\x7b\"products\":[\x7b\"a\":1\x7d]\x7d x"
      = String.mk "\x7b\"products\":[\x7b\"a\":1\x7d]\x7d".data
    ∧ processBatchContent "\x7b\"products\":[\x7b\"a\":1\x7d]\x7d x"
      = [schemaDefaults] :=
  repair_cut_law "\x7b\"products\":[\x7b\"a\":1\x7d]\x7d x" 0
    "\x7b\"products\":[\x7b\"a\":1\x7d]\x7d".data
    [("products", PyVal.list [PyVal.dict [("a", PyVal.int 1)]])]
    [PyVal.dict [("a", PyVal.int 1)]] [schemaDefaults]
    (by with_unfolding_all rfl) (by with_unfolding_all rfl)
    (by with_unfolding_all rfl) (by with_unfolding_all rfl)
    (by with_unfolding_all rfl) (by with_unfolding_all rfl)
